import Mathlib

/-!
Verification of the stock-scanner worker against its specification.

This file gives a shallow embedding of the pure computational core of the
scanner (TypeScript sources under `src/`) and proves or refutes the spec
claims about it.  JavaScript numbers are modelled as `ℚ` where the code only
performs field operations and comparisons, and as `ℝ` where transcendental
functions (`Math.tanh`, `Math.exp`, `Math.pow`) occur.  `Infinity` values
flowing through a computation are modelled explicitly (as `Option` or a
dedicated sum type) at the few places the code can produce them.
-/

/-- Option contract type (`'call' | 'put'`). -/
inductive OptionType where
  | call
  | put
deriving DecidableEq, Repr

/-- Trade direction (`'buy' | 'sell' | 'neutral'`). -/
inductive Direction where
  | buy
  | sell
  | neutral
deriving DecidableEq, Repr

/-- Trader classification (`'institutional' | 'retail' | 'mixed'`). -/
inductive TraderType where
  | institutional
  | retail
  | mixed
deriving DecidableEq, Repr

/-! ## Hedge scoring (`src/worker/options/hedge.ts`) -/

namespace Hedge

/-- The slice of `OptionSignalLite` read and written by
`computeHedgeScoreForSignal` (`hedge.ts`). -/
structure Signal where
  type : OptionType
  direction : Direction
  isDeepOTMPut : Bool
  notionalToMarketCap : ℚ
  isLongTermHedge : Bool
  isComboHedge : Bool
  isShortTermSpec : Bool
  isLargeOTMCall : Bool
  iv : ℚ
  traderType : TraderType
  moneyness : ℚ
  daysToExpiry : ℚ
  hedgeScore : ℚ
  hedgeTags : List String
deriving DecidableEq, Repr

/-- Flag computation from `processing.ts` line 351:
`type === 'put' && moneyness <= deepOTMPutCut`. -/
def isDeepOTMPutOf (type : OptionType) (moneyness deepOTMPutCut : ℚ) : Bool :=
  type = OptionType.put && moneyness ≤ deepOTMPutCut

/-- Flag computation from `processing.ts` line 353:
`daysToExpiry >= longTermDays`. -/
def isLongTermHedgeOf (daysToExpiry longTermDays : ℚ) : Bool :=
  daysToExpiry ≥ longTermDays

/-- Flag computation from `processing.ts` line 352:
`daysToExpiry <= shortTermDays`. -/
def isShortTermSpecOf (daysToExpiry shortTermDays : ℚ) : Bool :=
  daysToExpiry ≤ shortTermDays

/-- The weight table of `computeHedgeScoreForSignal`. -/
structure Weights where
  deepOTMPut : ℚ := 35/100
  smallCapRatio : ℚ := 15/100
  longTerm : ℚ := 25/100
  comboHedge : ℚ := 40/100
  shortTermDirectional : ℚ := 35/100
  largeOTMCall : ℚ := 25/100
  moneyFlowConfirm : ℚ := 20/100
  moneyFlowContradict : ℚ := 25/100
  highIVDirectional : ℚ := 15/100
  institutionalTrader : ℚ := 10/100

/-- The fixed `weights` object of `hedge.ts`. -/
def weights : Weights := {}

/-- `isBullishSignal` predicate of the money-flow adjustment block. -/
def isBullishSignal (s : Signal) : Prop :=
  (s.type = OptionType.call ∧ s.direction = Direction.buy) ∨
  (s.type = OptionType.put ∧ s.direction = Direction.sell)

/-- `isBearishSignal` predicate of the money-flow adjustment block. -/
def isBearishSignal (s : Signal) : Prop :=
  (s.type = OptionType.put ∧ s.direction = Direction.buy) ∨
  (s.type = OptionType.call ∧ s.direction = Direction.sell)

instance (s : Signal) : Decidable (isBullishSignal s) := by
  unfold isBullishSignal; infer_instance

instance (s : Signal) : Decidable (isBearishSignal s) := by
  unfold isBearishSignal; infer_instance

/-- Money-flow adjustment (`if/else if` chain of `hedge.ts` lines 87–103),
returned as the signed delta added to the score. -/
def moneyFlowAdj (s : Signal) (moneyFlowStrength : ℚ) : ℚ :=
  if isBullishSignal s ∧ moneyFlowStrength > 0 then
    -(weights.moneyFlowConfirm * moneyFlowStrength)
  else if isBearishSignal s ∧ moneyFlowStrength < 0 then
    -(weights.moneyFlowConfirm * |moneyFlowStrength|)
  else if isBullishSignal s ∧ moneyFlowStrength < 0 then
    weights.moneyFlowContradict * |moneyFlowStrength|
  else if isBearishSignal s ∧ moneyFlowStrength > 0 then
    weights.moneyFlowContradict * moneyFlowStrength
  else 0

/-- The tag pushed by the money-flow adjustment block, if any. -/
def moneyFlowTag (s : Signal) (moneyFlowStrength : ℚ) : List String :=
  if isBullishSignal s ∧ moneyFlowStrength > 0 then ["moneyFlowBullishConfirm"]
  else if isBearishSignal s ∧ moneyFlowStrength < 0 then ["moneyFlowBearishConfirm"]
  else if isBullishSignal s ∧ moneyFlowStrength < 0 then ["moneyFlowContradiction"]
  else if isBearishSignal s ∧ moneyFlowStrength > 0 then ["moneyFlowContradiction"]
  else []

/-- Raw (unclamped) score accumulated by the per-signal loop of
`computeHedgeScoreForSignal`; the sequential `score += / -=` updates are
written as one sum, one summand per `if` block in source order. -/
def rawScore (smallCapRatioCut : ℚ) (moneyFlowStrength : ℚ) (s : Signal) : ℚ :=
  (if s.isDeepOTMPut then weights.deepOTMPut else 0)
  + (if s.notionalToMarketCap > 0 ∧ s.notionalToMarketCap ≤ smallCapRatioCut then
      weights.smallCapRatio else 0)
  + (if s.isLongTermHedge then weights.longTerm else 0)
  + (if s.isComboHedge then weights.comboHedge else 0)
  - (if s.isShortTermSpec then weights.shortTermDirectional else 0)
  - (if s.isLargeOTMCall then weights.largeOTMCall else 0)
  - (if s.iv > 1/2 ∧ s.direction = Direction.buy then weights.highIVDirectional else 0)
  - (if s.traderType = TraderType.institutional then weights.institutionalTrader else 0)
  + moneyFlowAdj s moneyFlowStrength

/-- Tag list accumulated by the per-signal loop, the sequential `tags.push`
calls written as one concatenation in source order. -/
def rawTags (smallCapRatioCut : ℚ) (moneyFlowStrength : ℚ) (s : Signal) : List String :=
  (if s.isDeepOTMPut then ["deepOTMPut"] else [])
  ++ (if s.notionalToMarketCap > 0 ∧ s.notionalToMarketCap ≤ smallCapRatioCut then
      ["smallCapRatio"] else [])
  ++ (if s.isLongTermHedge then ["longTerm"] else [])
  ++ (if s.isComboHedge then ["comboHedge"] else [])
  ++ (if s.isShortTermSpec then ["shortTermDirectional"] else [])
  ++ (if s.isLargeOTMCall then ["largeOTMCall"] else [])
  ++ (if s.iv > 1/2 ∧ s.direction = Direction.buy then ["highIVDirectional"] else [])
  ++ (if s.traderType = TraderType.institutional then ["institutional"] else [])
  ++ moneyFlowTag s moneyFlowStrength

/-- Body of the per-signal loop of `computeHedgeScoreForSignal`: accumulates
the weighted score and tag list, then clamps the score to `[0, 1]`
(`s.hedgeScore = Math.max(0, Math.min(1, score))`). -/
def scoreSignal (smallCapRatioCut : ℚ) (moneyFlowStrength : ℚ) (s : Signal) : Signal :=
  { s with
    hedgeScore := max 0 (min 1 (rawScore smallCapRatioCut moneyFlowStrength s))
    hedgeTags := rawTags smallCapRatioCut moneyFlowStrength s }

/-- `computeHedgeScoreForSignal(signals, moneyFlowStrength, scanCfg)`:
resolves `smallCapRatioCut` (default `0.00005`) and rewrites each signal's
`hedgeScore`/`hedgeTags`.  In-place mutation is modelled as a map. -/
def computeHedgeScoreForSignal (signals : List Signal) (moneyFlowStrength : ℚ)
    (smallCapRatioCutCfg : Option ℚ) : List Signal :=
  let smallCapRatioCut := match smallCapRatioCutCfg with
    | some v => v
    | none => 5/100000
  signals.map (scoreSignal smallCapRatioCut moneyFlowStrength)

end Hedge

namespace Hedge

/-- C5 witness signal: every additive and subtractive weight fires at once
(deep OTM put flag together with large-OTM-call and short-term flags, high IV
buy, institutional trader, bullish money-flow confirmation). -/
def allFiringSignal : Signal :=
  { type := OptionType.call
    direction := Direction.buy
    isDeepOTMPut := true
    notionalToMarketCap := 1/100000
    isLongTermHedge := true
    isComboHedge := true
    isShortTermSpec := true
    isLargeOTMCall := true
    iv := 6/10
    traderType := TraderType.institutional
    moneyness := 11/10
    daysToExpiry := 7
    hedgeScore := 0
    hedgeTags := [] }

end Hedge

/-- C5: for every signal list, money-flow strength and configuration, every
hedge score assigned by `computeHedgeScoreForSignal` lies in `[0, 1]`. -/
theorem C5_hedge_score_clamped (signals : List Hedge.Signal) (moneyFlowStrength : ℚ)
    (cutCfg : Option ℚ) :
    ∀ s ∈ Hedge.computeHedgeScoreForSignal signals moneyFlowStrength cutCfg,
      0 ≤ s.hedgeScore ∧ s.hedgeScore ≤ 1 := by
  intro s hs
  simp only [Hedge.computeHedgeScoreForSignal, List.mem_map] at hs
  obtain ⟨t, _, rfl⟩ := hs
  unfold Hedge.scoreSignal
  refine ⟨le_max_left _ _, max_le (by norm_num) (min_le_left _ _)⟩

/-- C5 witness: the clamp holds on a concrete signal on which all additive and
subtractive weights fire simultaneously. -/
theorem C5_hedge_score_clamped_witness :
    0 ≤ (Hedge.scoreSignal (5/100000) 1 Hedge.allFiringSignal).hedgeScore ∧
      (Hedge.scoreSignal (5/100000) 1 Hedge.allFiringSignal).hedgeScore ≤ 1 :=
  C5_hedge_score_clamped [Hedge.allFiringSignal] 1 none
    (Hedge.scoreSignal (5/100000) 1 Hedge.allFiringSignal)
    (by simp [Hedge.computeHedgeScoreForSignal])

namespace Hedge

/-- C6 counterexample signal: a deep OTM put (moneyness `0.80` against cut
`0.85`), direction sell, long-dated (`daysToExpiry = 100 > 90`), but traded by
an institutional desk, so the `institutionalTrader` weight also fires. -/
def deepPutInstSignal : Signal :=
  { type := OptionType.put
    direction := Direction.sell
    isDeepOTMPut := isDeepOTMPutOf OptionType.put (80/100) (85/100)
    notionalToMarketCap := 1
    isLongTermHedge := isLongTermHedgeOf 100 90
    isComboHedge := false
    isShortTermSpec := isShortTermSpecOf 100 14
    isLargeOTMCall := false
    iv := 3/10
    traderType := TraderType.institutional
    moneyness := 80/100
    daysToExpiry := 100
    hedgeScore := 0
    hedgeTags := [] }

/-- C6 witness signal: as `deepPutInstSignal` but traded by a mixed
counterparty, so no subtractive weight fires. -/
def deepPutMixedSignal : Signal :=
  { deepPutInstSignal with traderType := TraderType.mixed }

end Hedge

/-- C6 counterexample: a deep OTM put with direction sell and a long-dated
expiry whose trader is classified institutional accumulates
`0.35 + 0.25 - 0.10 = 0.50`, which is not strictly greater than `0.5`, so the
claim fails as stated. -/
theorem C6_counterexample :
    Hedge.deepPutInstSignal.isDeepOTMPut = true ∧
    Hedge.deepPutInstSignal.moneyness = 80/100 ∧
    Hedge.deepPutInstSignal.direction = Direction.sell ∧
    Hedge.deepPutInstSignal.isLongTermHedge = true ∧
    Hedge.deepPutInstSignal.daysToExpiry = 100 ∧
    (Hedge.computeHedgeScoreForSignal [Hedge.deepPutInstSignal] 0 none).map
      Hedge.Signal.hedgeScore = [1/2] ∧
    ¬ ((1 : ℚ)/2 > 1/2) := by
  refine ⟨by norm_num [Hedge.deepPutInstSignal, Hedge.isDeepOTMPutOf],
    by norm_num [Hedge.deepPutInstSignal],
    by norm_num [Hedge.deepPutInstSignal],
    by norm_num [Hedge.deepPutInstSignal, Hedge.isLongTermHedgeOf],
    by norm_num [Hedge.deepPutInstSignal], ?_, by norm_num⟩
  norm_num [Hedge.computeHedgeScoreForSignal, Hedge.scoreSignal, Hedge.rawScore,
    Hedge.moneyFlowAdj, Hedge.isBullishSignal, Hedge.isBearishSignal,
    Hedge.deepPutInstSignal, Hedge.isDeepOTMPutOf, Hedge.isLongTermHedgeOf,
    Hedge.isShortTermSpecOf, Hedge.weights]

/-- C6 amended: a deep OTM put (put type, deep-OTM flag set) with direction
sell and the long-term flag set gets a hedge score strictly above `0.5`,
provided no subtractive feature fires: not short-term, not a large OTM call,
not institutional, and the money-flow strength is not a positive
(bullish-confirming) value. -/
theorem C6_deep_put_long_term_score (signals : List Hedge.Signal) (moneyFlowStrength : ℚ)
    (cutCfg : Option ℚ) (i : ℕ) (s : Hedge.Signal)
    (hget : signals[i]? = some s)
    (htype : s.type = OptionType.put)
    (hdeep : s.isDeepOTMPut = true)
    (hdir : s.direction = Direction.sell)
    (hlong : s.isLongTermHedge = true)
    (hshort : s.isShortTermSpec = false)
    (hlarge : s.isLargeOTMCall = false)
    (hinst : s.traderType ≠ TraderType.institutional)
    (hmfs : moneyFlowStrength ≤ 0) :
    ∃ s', (Hedge.computeHedgeScoreForSignal signals moneyFlowStrength cutCfg)[i]? =
        some s' ∧ 1/2 < s'.hedgeScore := by
  have hb : Hedge.isBullishSignal s := Or.inr ⟨htype, hdir⟩
  have hnb : ¬ Hedge.isBearishSignal s := by
    simp [Hedge.isBearishSignal, htype, hdir]
  have hadj : 0 ≤ Hedge.moneyFlowAdj s moneyFlowStrength := by
    unfold Hedge.moneyFlowAdj
    rw [if_neg (fun h => absurd h.2 (not_lt.2 hmfs))]
    rw [if_neg (fun h => hnb h.1)]
    split_ifs with h3 h4
    · exact mul_nonneg (by norm_num [Hedge.weights]) (abs_nonneg _)
    · exact absurd h4.1 hnb
    · exact le_rfl
  have key : ∀ cut : ℚ, 1/2 < (Hedge.scoreSignal cut moneyFlowStrength s).hedgeScore := by
    intro cut
    have hraw : 1/2 < Hedge.rawScore cut moneyFlowStrength s := by
      have h2 : (0:ℚ) ≤ if s.notionalToMarketCap > 0 ∧ s.notionalToMarketCap ≤ cut then
          Hedge.weights.smallCapRatio else 0 := by
        split <;> norm_num [Hedge.weights]
      have h4 : (0:ℚ) ≤ if s.isComboHedge then Hedge.weights.comboHedge else 0 := by
        split <;> norm_num [Hedge.weights]
      have hiv : (if s.iv > 1/2 ∧ s.direction = Direction.buy then
          Hedge.weights.highIVDirectional else (0:ℚ)) = 0 := by
        rw [if_neg]
        rintro ⟨-, h⟩
        rw [hdir] at h
        cases h
      unfold Hedge.rawScore
      rw [if_pos hdeep, if_pos hlong, hiv,
        if_neg (fun h : s.isShortTermSpec = true => by rw [hshort] at h; cases h),
        if_neg (fun h : s.isLargeOTMCall = true => by rw [hlarge] at h; cases h),
        if_neg hinst]
      have e1 : Hedge.weights.deepOTMPut = 35/100 := rfl
      have e2 : Hedge.weights.longTerm = 25/100 := rfl
      linarith [hadj, h2, h4]
    show (1:ℚ)/2 < max 0 (min 1 (Hedge.rawScore cut moneyFlowStrength s))
    exact lt_of_lt_of_le (lt_min (by norm_num) hraw) (le_max_right _ _)
  simp only [Hedge.computeHedgeScoreForSignal]
  rw [List.getElem?_map, hget]
  exact ⟨_, rfl, key _⟩

/-- C6 witness: the amended bound holds on the concrete mixed-trader deep OTM
put with zero money-flow strength. -/
theorem C6_deep_put_long_term_score_witness :
    ∃ s', (Hedge.computeHedgeScoreForSignal [Hedge.deepPutMixedSignal] 0 none)[0]? =
        some s' ∧ 1/2 < s'.hedgeScore :=
  C6_deep_put_long_term_score [Hedge.deepPutMixedSignal] 0 none 0 Hedge.deepPutMixedSignal
    (by simp)
    (by norm_num [Hedge.deepPutMixedSignal, Hedge.deepPutInstSignal])
    (by norm_num [Hedge.deepPutMixedSignal, Hedge.deepPutInstSignal, Hedge.isDeepOTMPutOf])
    (by norm_num [Hedge.deepPutMixedSignal, Hedge.deepPutInstSignal])
    (by norm_num [Hedge.deepPutMixedSignal, Hedge.deepPutInstSignal, Hedge.isLongTermHedgeOf])
    (by norm_num [Hedge.deepPutMixedSignal, Hedge.deepPutInstSignal, Hedge.isShortTermSpecOf])
    (by norm_num [Hedge.deepPutMixedSignal, Hedge.deepPutInstSignal])
    (by decide)
    le_rfl

/-! ## Freshness gating (`scanSymbolOptions` and `processExpirations`) -/

namespace Fresh

/-- JavaScript `toUpperCase` for the ASCII market-state strings involved. -/
def jsToUpper (s : String) : String :=
  String.mk (s.toList.map Char.toUpper)

/-- `minutesSince(val)` from `util.ts`: `Infinity` (here `none`) when the
last-trade reference is absent or has no finite timestamp, otherwise
`(Date.now() - t) / 60000`.  `now` and `t` are epoch milliseconds. -/
def minutesSince (now : ℚ) (val : Option ℚ) : Option ℚ :=
  match val with
  | none => none
  | some t => some ((now - t) / 60000)

/-- Resolution of a configured window: `Number.isFinite(cfg) ?
Math.max(1, Math.floor(cfg)) : dflt` (`scanSymbolOptions`, part_018
lines 551–556). -/
def resolveWindow (cfg : Option ℚ) (dflt : ℚ) : ℚ :=
  match cfg with
  | some v => max 1 (⌊v⌋ : ℚ)
  | none => dflt

/-- `freshWindowMins` selection of `scanSymbolOptions`: `60` for a regular
session (market state compares equal to `'REGULAR'` after upcasing), else the
non-regular window whose built-in default is `24 * 60` minutes. -/
def freshWindowMins (marketState : Option String) (regCfg nonRegCfg : Option ℚ) : ℚ :=
  let isRegular := jsToUpper (marketState.getD "") = "REGULAR"
  let regFresh := resolveWindow regCfg 60
  let nonRegFresh := resolveWindow nonRegCfg (24 * 60)
  if isRegular then regFresh else nonRegFresh

/-- The per-contract freshness gate of `processExpirations`
(`processing.ts` line 281): `fresh = minutesSince(lastTradeRef) <=
freshWindowMins`; `Infinity <= w` is false. -/
def freshGate (now : ℚ) (lastTrade : Option ℚ) (freshWindow : ℚ) : Bool :=
  match minutesSince now lastTrade with
  | none => false
  | some age => age ≤ freshWindow

end Fresh

/-- C2 counterexample: with no caller-supplied configuration and a
non-regular market state, the freshness window is `24 * 60 = 1440` minutes,
not the claimed `4320`. -/
theorem C2_counterexample :
    Fresh.freshWindowMins (some "CLOSED") none none = 1440 ∧ (1440 : ℚ) ≠ 4320 := by
  constructor
  · rw [Fresh.freshWindowMins, if_neg (by decide)]
    norm_num [Fresh.resolveWindow]
  · norm_num

/-- C2 amended: the freshness gate rejects a contract exactly when its
last-trade age in minutes exceeds the freshness window (an absent or invalid
last-trade timestamp counts as infinitely old and is always rejected), and
with no caller-supplied values the window is `60` minutes in a regular
session and `1440` minutes (24 hours) otherwise. -/
theorem C2_freshness_gate (now : ℚ) (lastTrade : Option ℚ) (marketState : Option String)
    (w : ℚ) :
    (Fresh.freshGate now lastTrade w = false ↔
      ∀ a, Fresh.minutesSince now lastTrade = some a → w < a) ∧
    Fresh.freshWindowMins marketState none none =
      if Fresh.jsToUpper (marketState.getD "") = "REGULAR" then 60 else 1440 := by
  constructor
  · cases lastTrade with
    | none => simp [Fresh.freshGate, Fresh.minutesSince]
    | some t =>
        simp [Fresh.freshGate, Fresh.minutesSince, not_le]
  · simp [Fresh.freshWindowMins, Fresh.resolveWindow]
    norm_num

/-- C2 witness: the amended characterisation evaluated for a closed market
and a trade 100 minutes old. -/
theorem C2_freshness_gate_witness :
    (Fresh.freshGate 6000000 (some 0) 1440 = false ↔
      ∀ a, Fresh.minutesSince 6000000 (some 0) = some a → 1440 < a) ∧
    Fresh.freshWindowMins (some "CLOSED") none none =
      if Fresh.jsToUpper ((some "CLOSED").getD "") = "REGULAR" then 60 else 1440 :=
  C2_freshness_gate 6000000 (some 0) (some "CLOSED") 1440

/-! ## Value analysis (`src/worker/scanner/value-analyzer.ts`) -/

namespace ValueA

/-- Digits of a natural number, base 10. -/
def natDigits (n : ℕ) : String := String.mk (Nat.toDigits 10 n)

/-- `toFixed(d)` for a nonnegative rational: round to `d` decimals, ties to
the larger candidate, then print with exactly `d` decimals. -/
def fmtFixedPos (d : ℕ) (q : ℚ) : String :=
  let n := (⌊q * 10^d + 1/2⌋).toNat
  if d = 0 then natDigits n
  else
    let ip := n / 10^d
    let fp := n % 10^d
    let fs := natDigits fp
    let pad := String.mk (List.replicate (d - fs.length) '0')
    natDigits ip ++ "." ++ pad ++ fs

/-- JavaScript `Number.prototype.toFixed(d)`. -/
def fmtFixed (d : ℕ) (q : ℚ) : String :=
  if q < 0 then "-" ++ fmtFixedPos d (-q) else fmtFixedPos d q

/-- Smallest number of decimal digits (up to the fuel) after which `q` scaled
by `10^k` is an integer. -/
def decDigitsAux : ℕ → ℚ → ℕ
  | 0, _ => 0
  | fuel+1, q => if q.den = 1 then 0 else 1 + decDigitsAux fuel (q * 10)

/-- JavaScript default number-to-string conversion, for the finite decimal
values used in the score templates (e.g. `3.2` prints as `"3.2"`). -/
def jsNumToString (q : ℚ) : String :=
  if q < 0 then "-" ++ fmtFixedPos (decDigitsAux 40 (-q)) (-q)
  else fmtFixedPos (decDigitsAux 40 q) q

/-- JavaScript truthiness of a nullable number (`null`, `0` falsy). -/
def truthy (o : Option ℚ) : Bool :=
  match o with
  | some v => v ≠ 0
  | none => false

/-- `financialData` module slice read by `analyzeStockValue`. -/
structure FinancialData where
  returnOnEquity : Option ℚ := none
  profitMargins : Option ℚ := none
  debtToEquity : Option ℚ := none
  earningsGrowth : Option ℚ := none
  revenueGrowth : Option ℚ := none
deriving DecidableEq, Repr

/-- `defaultKeyStatistics` module slice. -/
structure KeyStats where
  priceToBook : Option ℚ := none
deriving DecidableEq, Repr

/-- `price` module slice. -/
structure PriceData where
  regularMarketPrice : Option ℚ := none
  longName : Option String := none
  regularMarketChangePercent : Option ℚ := none
  regularMarketVolume : Option ℚ := none
deriving DecidableEq, Repr

/-- `summaryDetail` module slice. -/
structure SummaryDetail where
  trailingPE : Option ℚ := none
  forwardPE : Option ℚ := none
deriving DecidableEq, Repr

/-- `summaryProfile` module slice. -/
structure SummaryProfile where
  sector : Option String := none
  industry : Option String := none
deriving DecidableEq, Repr

/-- The quote-summary payload consumed by `analyzeStockValue`. -/
structure QuoteSummary where
  financialData : Option FinancialData := none
  defaultKeyStatistics : Option KeyStats := none
  price : Option PriceData := none
  summaryDetail : Option SummaryDetail := none
  summaryProfile : Option SummaryProfile := none
deriving DecidableEq, Repr

/-- Per-sector threshold configuration. -/
structure SectorConfig where
  peMax : ℚ
  peOver : ℚ
  pbMax : ℚ
  roeMin : ℚ
  debtMax : ℚ
  marginHealthy : Option ℚ := none
  marginStrong : Option ℚ := none
  lowDebtBonus : Option ℚ := none
deriving DecidableEq, Repr

/-- `DEFAULT_CONFIG` of `value-analyzer.ts`. -/
def DEFAULT_CONFIG : SectorConfig :=
  { peMax := 22, peOver := 55, pbMax := 32/10, roeMin := 11, debtMax := 220
    marginHealthy := some 10, marginStrong := some 25, lowDebtBonus := some 50 }

/-- `CHINA_ADJUSTMENT`; it sets every `SectorConfig` field, so the spread
`{ ...DEFAULT_CONFIG, ...CHINA_ADJUSTMENT }` equals it. -/
def CHINA_ADJUSTMENT : SectorConfig :=
  { peMax := 18, peOver := 45, pbMax := 5/2, roeMin := 9, debtMax := 300
    marginHealthy := some 8, marginStrong := some 18, lowDebtBonus := some 80 }

/-- `SECTOR_CONFIGS` lookup table. -/
def SECTOR_CONFIGS (sector : String) : Option SectorConfig :=
  if sector = "Technology" then some
    { peMax := 40, peOver := 85, pbMax := 9, roeMin := 16, debtMax := 140
      marginHealthy := some 12, marginStrong := some 24, lowDebtBonus := some 60 }
  else if sector = "Communication Services" then some
    { peMax := 32, peOver := 65, pbMax := 11/2, roeMin := 13, debtMax := 160
      marginHealthy := some 10, marginStrong := some 22, lowDebtBonus := some 70 }
  else if sector = "Consumer Cyclical" then some
    { peMax := 28, peOver := 60, pbMax := 9/2, roeMin := 14, debtMax := 210
      marginHealthy := some 8, marginStrong := some 18, lowDebtBonus := some 80 }
  else if sector = "Consumer Defensive" then some
    { peMax := 24, peOver := 50, pbMax := 4, roeMin := 12, debtMax := 200
      marginHealthy := some 9, marginStrong := some 18, lowDebtBonus := some 70 }
  else if sector = "Industrials" then some
    { peMax := 23, peOver := 48, pbMax := 7/2, roeMin := 11, debtMax := 240
      marginHealthy := some 8, marginStrong := some 16, lowDebtBonus := some 70 }
  else if sector = "Basic Materials" then some
    { peMax := 22, peOver := 45, pbMax := 32/10, roeMin := 10, debtMax := 220
      marginHealthy := some 12, marginStrong := some 22, lowDebtBonus := some 70 }
  else if sector = "Financial Services" then some
    { peMax := 16, peOver := 30, pbMax := 9/5, roeMin := 9, debtMax := 600
      marginHealthy := some 15, marginStrong := some 25, lowDebtBonus := some 150 }
  else if sector = "Energy" then some
    { peMax := 15, peOver := 35, pbMax := 5/2, roeMin := 12, debtMax := 150
      marginHealthy := some 12, marginStrong := some 25, lowDebtBonus := some 60 }
  else if sector = "Utilities" then some
    { peMax := 22, peOver := 40, pbMax := 5/2, roeMin := 9, debtMax := 320
      marginHealthy := some 8, marginStrong := some 15, lowDebtBonus := some 120 }
  else if sector = "Real Estate" then some
    { peMax := 35, peOver := 75, pbMax := 14/5, roeMin := 6, debtMax := 450
      marginHealthy := some 15, marginStrong := some 30, lowDebtBonus := some 150 }
  else if sector = "Healthcare" then some
    { peMax := 30, peOver := 60, pbMax := 6, roeMin := 12, debtMax := 170
      marginHealthy := some 12, marginStrong := some 22, lowDebtBonus := some 80 }
  else none

/-- `MAX_SCORE`. -/
def MAX_SCORE : ℚ := 6

/-- Suffix test on strings (JavaScript `endsWith`). -/
def jsEndsWith (s suffix : String) : Bool :=
  List.isSuffixOf suffix.toList s.toList

/-- `isChinaStock`: upper-cased symbol ends with `.SS` or `.SZ`. -/
def isChinaStock (symbol : String) : Bool :=
  jsEndsWith (Fresh.jsToUpper symbol) ".SS" || jsEndsWith (Fresh.jsToUpper symbol) ".SZ"

/-- `Number(value.toFixed(2))`: round to two decimals, ties to the larger
candidate. -/
def round2 (q : ℚ) : ℚ :=
  if q < 0 then -((⌊(-q) * 100 + 1/2⌋ : ℚ) / 100) else (⌊q * 100 + 1/2⌋ : ℚ) / 100

/-- `clampScore` (`value-analyzer.ts` lines 74–77):
`Math.max(0, Math.min(MAX_SCORE, Number(value.toFixed(2))))`. -/
def clampScore (value : ℚ) : ℚ :=
  max 0 (min MAX_SCORE (round2 value))

/-- `asPercent`: `null` propagates, otherwise multiply by 100. -/
def asPercent (value : Option ℚ) : Option ℚ :=
  value.map (· * 100)

/-- The result record of `analyzeStockValue`. -/
structure ValueScore where
  symbol : String
  price : ℚ
  score : ℚ
  pb : Option ℚ
  pe : Option ℚ
  roe : Option ℚ
  profitMargin : Option ℚ
  debtToEquity : Option ℚ
  growth : Option ℚ
  sector : String
  industry : Option String
  thresholds : SectorConfig
  reasons : List String
  name : String
  changePercent : ℚ
  volume : ℚ
deriving DecidableEq, Repr

/-- Sector string: `summaryProfile?.sector || 'Unknown'` (empty string is
falsy). -/
def sectorOf (sp : Option SummaryProfile) : String :=
  match sp with
  | some p =>
    match p.sector with
    | some s => if s = "" then "Unknown" else s
    | none => "Unknown"
  | none => "Unknown"

/-- P/B scoring block (`value-analyzer.ts` lines 135–146): score delta and
pushed reasons.  `pb && pb > 0` collapses to `0 < pb`. -/
def pbBlock (cfg : SectorConfig) (pb : Option ℚ) : ℚ × List String :=
  match pb with
  | some v =>
    if 0 < v then
      if v ≤ cfg.pbMax * (1/2) then (1, ["P/B very low (" ++ fmtFixed 2 v ++ ")"])
      else if v ≤ cfg.pbMax then (1/2, ["P/B attractive (<" ++ jsNumToString cfg.pbMax ++ ")"])
      else if v ≥ cfg.pbMax * (3/2) then
        (-(1/2), ["P/B rich (>~" ++ fmtFixed 1 (cfg.pbMax * (3/2)) ++ ")"])
      else (0, [])
    else (0, ["P/B unavailable"])
  | none => (0, ["P/B unavailable"])

/-- Forward-P/E note (`if (!trailingPE && forwardPE)`). -/
def fpeNote (trailingPE forwardPE : Option ℚ) : List String :=
  if ¬ truthy trailingPE ∧ truthy forwardPE then ["Using forward P/E (no trailing EPS)"] else []

/-- P/E scoring block (lines 152–162). -/
def peBlock (cfg : SectorConfig) (pe : Option ℚ) : ℚ × List String :=
  match pe with
  | some v =>
    if 0 < v then
      if v ≤ cfg.peMax * (6/10) then (1, ["P/E cheap (" ++ fmtFixed 1 v ++ ")"])
      else if v ≤ cfg.peMax then (1/2, ["P/E fair (<" ++ jsNumToString cfg.peMax ++ ")"])
      else if v ≥ cfg.peOver then (-(1/2), ["P/E stretched (>" ++ jsNumToString cfg.peOver ++ ")"])
      else (0, [])
    else (0, ["P/E unavailable"])
  | none => (0, ["P/E unavailable"])

/-- ROE scoring block (lines 165–175). -/
def roeBlock (cfg : SectorConfig) (roe : Option ℚ) : ℚ × List String :=
  match roe with
  | some v =>
    if v ≥ cfg.roeMin * (5/4) then (1, ["ROE excellent (" ++ fmtFixed 1 v ++ "%)"])
    else if v ≥ cfg.roeMin then (1/2, ["ROE solid (>" ++ jsNumToString cfg.roeMin ++ "%)"])
    else if 0 < v ∧ v < 2 then (-(1/2), ["ROE very low (<2%)"])
    else (0, [])
  | none => (0, ["ROE unavailable"])

/-- Margin scoring block (lines 178–190), with the `??` threshold fallbacks. -/
def marginBlock (cfg : SectorConfig) (profitMargin : Option ℚ) : ℚ × List String :=
  let marginHealthy := ((cfg.marginHealthy).orElse (fun _ => DEFAULT_CONFIG.marginHealthy)).getD 10
  let marginStrong := ((cfg.marginStrong).orElse (fun _ => DEFAULT_CONFIG.marginStrong)).getD
    (max (marginHealthy + 10) 20)
  match profitMargin with
  | some v =>
    if v ≥ marginStrong then (1, ["High margin (>" ++ jsNumToString marginStrong ++ "%)"])
    else if v ≥ marginHealthy then (1/2, ["Healthy margin (>" ++ jsNumToString marginHealthy ++ "%)"])
    else if v < 0 then (-(1/2), ["Negative margin"])
    else (0, [])
  | none => (0, ["Profit margin unavailable"])

/-- Debt scoring block (lines 193–204). -/
def debtBlock (cfg : SectorConfig) (sector : String) (debtToEquity : Option ℚ) : ℚ × List String :=
  let lowDebtBonus := ((cfg.lowDebtBonus).orElse (fun _ => DEFAULT_CONFIG.lowDebtBonus)).getD 50
  match debtToEquity with
  | some v =>
    if v ≤ lowDebtBonus ∧ sector ≠ "Financial Services" then (1, ["Low leverage"])
    else if v ≤ cfg.debtMax then (1/2, ["Debt within sector norm"])
    else (-(1/2), ["High debt (>" ++ jsNumToString cfg.debtMax ++ "%)"])
  | none => (0, ["Debt-to-equity unavailable"])

/-- Growth scoring block (lines 207–217). -/
def growthBlock (growthRate : Option ℚ) : ℚ × List String :=
  match growthRate with
  | some v =>
    if v ≥ 15 then (1, ["Growth strong (" ++ fmtFixed 1 v ++ "%)"])
    else if v ≥ 5 then (1/2, ["Growth steady (" ++ fmtFixed 1 v ++ "%)"])
    else if v < 0 then (-(1/2), ["Growth contracting"])
    else (0, [])
  | none => (0, ["Growth data unavailable"])

/-- Body of `analyzeStockValue` once the three mandatory modules are present:
metric extraction, the six scoring blocks (the sequential `addScore` calls
written as a sum and a reason concatenation in source order), and the final
`clampScore`. -/
def analyzeStockValueCore (symbol : String) (fd : FinancialData) (ks : KeyStats)
    (pd : PriceData) (sd : Option SummaryDetail) (sp : Option SummaryProfile) : ValueScore :=
  let price := pd.regularMarketPrice.getD 0
  let pb := ks.priceToBook
  let sector := sectorOf sp
  let cfg := if isChinaStock symbol then CHINA_ADJUSTMENT
    else (SECTOR_CONFIGS sector).getD DEFAULT_CONFIG
  let trailingPE := (sd.map (·.trailingPE)).getD none
  let forwardPE := (sd.map (·.forwardPE)).getD none
  let pe := trailingPE.orElse (fun _ => forwardPE)
  let roe := asPercent fd.returnOnEquity
  let profitMargin := asPercent fd.profitMargins
  let debtToEquity := fd.debtToEquity
  let growthRate := (asPercent fd.earningsGrowth).orElse (fun _ => asPercent fd.revenueGrowth)
  let b1 := pbBlock cfg pb
  let b2 := peBlock cfg pe
  let b3 := roeBlock cfg roe
  let b4 := marginBlock cfg profitMargin
  let b5 := debtBlock cfg sector debtToEquity
  let b6 := growthBlock growthRate
  let score := clampScore (b1.1 + b2.1 + b3.1 + b4.1 + b5.1 + b6.1)
  let reasons := b1.2 ++ fpeNote trailingPE forwardPE ++ b2.2 ++ b3.2 ++ b4.2 ++ b5.2 ++ b6.2
  { symbol := symbol
    price := price
    score := score
    pb := pb
    pe := pe
    roe := roe
    profitMargin := profitMargin
    debtToEquity := debtToEquity
    growth := growthRate
    sector := sector
    industry := (sp.map (·.industry)).getD none
    thresholds := cfg
    reasons := reasons
    name := match pd.longName with
      | some n => if n = "" then symbol else n
      | none => symbol
    changePercent := match pd.regularMarketChangePercent with
      | some c => if c = 0 then 0 else c * 100
      | none => 0
    volume := pd.regularMarketVolume.getD 0 }

/-- `analyzeStockValue`: returns `null` when `financialData`,
`defaultKeyStatistics` or `price` is missing, otherwise the computed
`ValueScore`.  The network fetch and the catch-all error path (both of which
return `null`) are outside the pure model. -/
def analyzeStockValue (symbol : String) (q : QuoteSummary) : Option ValueScore :=
  match q.financialData, q.defaultKeyStatistics, q.price with
  | some fd, some ks, some pd => some (analyzeStockValueCore symbol fd ks pd q.summaryDetail q.summaryProfile)
  | _, _, _ => none

end ValueA

namespace ValueA

/-- The clamp of `clampScore` keeps every value in `[0, 6]`. -/
theorem clampScore_bounds (v : ℚ) : 0 ≤ clampScore v ∧ clampScore v ≤ 6 :=
  ⟨le_max_left _ _,
    max_le (by norm_num) ((min_le_left _ _).trans (by norm_num [MAX_SCORE]))⟩

/-- C8 witness quote: all three mandatory modules present but every metric
field absent. -/
def emptyQuote : QuoteSummary :=
  { financialData := some {}, defaultKeyStatistics := some {}, price := some {} }

/-- The result computed for `emptyQuote`. -/
def emptyResult : ValueScore :=
  analyzeStockValueCore "EMPTY" {} {} {} none none

end ValueA

/-- C8: whenever `analyzeStockValue` returns a non-null result its score lies
in `[0, 6]`, and when all six metric categories are unavailable the score is
exactly `0` and the reasons are exactly the six per-category "unavailable"
strings. -/
theorem C8_value_score (symbol : String) (q : ValueA.QuoteSummary) (r : ValueA.ValueScore)
    (h : ValueA.analyzeStockValue symbol q = some r) :
    (0 ≤ r.score ∧ r.score ≤ 6) ∧
    ((∀ fd, q.financialData = some fd → fd.returnOnEquity = none ∧ fd.profitMargins = none ∧
        fd.debtToEquity = none ∧ fd.earningsGrowth = none ∧ fd.revenueGrowth = none) →
     (∀ ks, q.defaultKeyStatistics = some ks → ks.priceToBook = none) →
     (∀ sd, q.summaryDetail = some sd → sd.trailingPE = none ∧ sd.forwardPE = none) →
     r.score = 0 ∧ r.reasons = ["P/B unavailable", "P/E unavailable", "ROE unavailable",
       "Profit margin unavailable", "Debt-to-equity unavailable", "Growth data unavailable"]) := by
  cases hfd : q.financialData with
  | none => rw [ValueA.analyzeStockValue, hfd] at h; cases h
  | some fd =>
  cases hks : q.defaultKeyStatistics with
  | none => rw [ValueA.analyzeStockValue, hfd, hks] at h; simp at h
  | some ks =>
  cases hpd : q.price with
  | none => rw [ValueA.analyzeStockValue, hfd, hks, hpd] at h; simp at h
  | some pd =>
  rw [ValueA.analyzeStockValue, hfd, hks, hpd, Option.some_inj] at h
  subst h
  constructor
  · exact ValueA.clampScore_bounds _
  · intro h1 h2 h3
    obtain ⟨hroe, hmar, hdebt, heg, hrg⟩ := h1 fd rfl
    have hpb := h2 ks rfl
    have htp : (q.summaryDetail.map (·.trailingPE)).getD none = none := by
      cases hsd : q.summaryDetail with
      | none => rfl
      | some sd => simpa using (h3 sd hsd).1
    have hfp : (q.summaryDetail.map (·.forwardPE)).getD none = none := by
      cases hsd : q.summaryDetail with
      | none => rfl
      | some sd => simpa using (h3 sd hsd).2
    constructor
    · show ValueA.clampScore _ = 0
      norm_num [hroe, hmar, hdebt, heg, hrg, hpb, htp, hfp, ValueA.asPercent,
        ValueA.pbBlock, ValueA.peBlock, ValueA.roeBlock, ValueA.marginBlock,
        ValueA.debtBlock, ValueA.growthBlock, ValueA.clampScore, ValueA.round2,
        ValueA.MAX_SCORE, Option.orElse]
    · show _ ++ _ ++ _ ++ _ ++ _ ++ _ ++ _ = _
      norm_num [hroe, hmar, hdebt, heg, hrg, hpb, htp, hfp, ValueA.asPercent,
        ValueA.pbBlock, ValueA.peBlock, ValueA.roeBlock, ValueA.marginBlock,
        ValueA.debtBlock, ValueA.growthBlock, ValueA.fpeNote, ValueA.truthy, Option.orElse]

/-- C8 witness: the all-unavailable quote scores exactly `0` with the six
"unavailable" reasons, within bounds. -/
theorem C8_value_score_witness :
    (0 ≤ ValueA.emptyResult.score ∧ ValueA.emptyResult.score ≤ 6) ∧
    ((∀ fd, ValueA.emptyQuote.financialData = some fd → fd.returnOnEquity = none ∧
        fd.profitMargins = none ∧ fd.debtToEquity = none ∧ fd.earningsGrowth = none ∧
        fd.revenueGrowth = none) →
     (∀ ks, ValueA.emptyQuote.defaultKeyStatistics = some ks → ks.priceToBook = none) →
     (∀ sd, ValueA.emptyQuote.summaryDetail = some sd → sd.trailingPE = none ∧
        sd.forwardPE = none) →
     ValueA.emptyResult.score = 0 ∧
       ValueA.emptyResult.reasons = ["P/B unavailable", "P/E unavailable", "ROE unavailable",
         "Profit margin unavailable", "Debt-to-equity unavailable", "Growth data unavailable"]) :=
  C8_value_score "EMPTY" ValueA.emptyQuote ValueA.emptyResult rfl

/-! ## JavaScript array/object helpers

`Array.prototype.sort` with a consistent comparator is a stable sort
(ES2019), modelled by stable insertion sort `jsSort le` where `le a b` means
"the comparator allows `a` before `b`".  Plain-object grouping iterates keys
in insertion order, modelled by `keysInOrder`. -/

namespace JsList

/-- Insert `x` (an earlier element) into the already sorted list of later
elements: `x` goes before the first `y` it may precede. -/
def jsInsert (le : α → α → Bool) (x : α) : List α → List α
  | [] => [x]
  | y :: ys => if le x y then x :: y :: ys else y :: jsInsert le x ys

/-- Stable insertion sort. -/
def jsSort (le : α → α → Bool) : List α → List α
  | [] => []
  | x :: xs => jsInsert le x (jsSort le xs)

/-- First-occurrence key order of a list (JS object key insertion order). -/
def keysInOrder [DecidableEq α] (l : List α) : List α :=
  l.foldl (fun acc x => if x ∈ acc then acc else acc ++ [x]) []

theorem mem_jsInsert {le : α → α → Bool} {x z : α} :
    ∀ {l : List α}, z ∈ jsInsert le x l ↔ z = x ∨ z ∈ l := by
  intro l
  induction l with
  | nil => simp [jsInsert]
  | cons y ys ih =>
      simp only [jsInsert]
      split
      · simp
      · simp [ih]
        tauto

theorem jsInsert_perm (le : α → α → Bool) (x : α) :
    ∀ l : List α, List.Perm (jsInsert le x l) (x :: l) := by
  intro l
  induction l with
  | nil => simp [jsInsert]
  | cons y ys ih =>
      simp only [jsInsert]
      split
      · exact List.Perm.refl _
      · exact (ih.cons y).trans (List.Perm.swap x y ys)

theorem jsSort_perm (le : α → α → Bool) : ∀ l : List α, List.Perm (jsSort le l) l := by
  intro l
  induction l with
  | nil => exact List.Perm.refl _
  | cons x xs ih => exact (jsInsert_perm le x (jsSort le xs)).trans (ih.cons x)

theorem jsInsert_pairwise {le : α → α → Bool}
    (htot : ∀ a b, le a b = true ∨ le b a = true)
    (htrans : ∀ a b c, le a b = true → le b c = true → le a c = true)
    {x : α} : ∀ {l : List α}, l.Pairwise (fun a b => le a b = true) →
      (jsInsert le x l).Pairwise (fun a b => le a b = true) := by
  intro l
  induction l with
  | nil => intro _; simp [jsInsert]
  | cons y ys ih =>
      intro hl
      rw [List.pairwise_cons] at hl
      obtain ⟨hy, hys⟩ := hl
      simp only [jsInsert]
      split
      · rename_i hxy
        refine List.Pairwise.cons ?_ (List.Pairwise.cons hy hys)
        intro z hz
        rcases List.mem_cons.mp hz with rfl | hz
        · exact hxy
        · exact htrans x y z hxy (hy z hz)
      · rename_i hxy
        refine List.Pairwise.cons ?_ (ih hys)
        intro z hz
        rcases mem_jsInsert.mp hz with rfl | hz
        · rcases htot z y with h | h
          · exact absurd h hxy
          · exact h
        · exact hy z hz

theorem jsSort_pairwise {le : α → α → Bool}
    (htot : ∀ a b, le a b = true ∨ le b a = true)
    (htrans : ∀ a b c, le a b = true → le b c = true → le a c = true) :
    ∀ l : List α, (jsSort le l).Pairwise (fun a b => le a b = true) := by
  intro l
  induction l with
  | nil => simp [jsSort]
  | cons x xs ih => exact jsInsert_pairwise htot htrans ih

theorem mem_keys_foldl [DecidableEq α] {z : α} :
    ∀ (l acc : List α), (z ∈ l.foldl (fun acc x => if x ∈ acc then acc else acc ++ [x]) acc ↔
      z ∈ acc ∨ z ∈ l)
  | [], acc => by simp
  | x :: xs, acc => by
      simp only [List.foldl_cons]
      split
      · rename_i hx
        rw [mem_keys_foldl xs acc]
        constructor
        · tauto
        · rintro (h | h)
          · exact Or.inl h
          · rcases List.mem_cons.mp h with rfl | h
            · exact Or.inl hx
            · exact Or.inr h
      · rw [mem_keys_foldl xs (acc ++ [x])]
        simp
        tauto

theorem mem_keysInOrder [DecidableEq α] {z : α} {l : List α} :
    z ∈ keysInOrder l ↔ z ∈ l := by
  rw [keysInOrder, mem_keys_foldl]
  simp

theorem nodup_keys_foldl [DecidableEq α] :
    ∀ (l acc : List α), acc.Nodup →
      (l.foldl (fun acc x => if x ∈ acc then acc else acc ++ [x]) acc).Nodup
  | [], acc, h => h
  | x :: xs, acc, h => by
      simp only [List.foldl_cons]
      split
      · exact nodup_keys_foldl xs acc h
      · rename_i hx
        refine nodup_keys_foldl xs (acc ++ [x]) ?_
        simp [List.nodup_append, h, hx]

theorem nodup_keysInOrder [DecidableEq α] (l : List α) : (keysInOrder l).Nodup :=
  nodup_keys_foldl l [] List.nodup_nil

theorem enumFrom_map_snd (f : α → β) :
    ∀ (n : ℕ) (l : List α), (List.enumFrom n l).map (fun p => f p.2) = l.map f
  | _, [] => rfl
  | n, x :: xs => by
      simp only [List.enumFrom, List.map_cons]
      rw [enumFrom_map_snd f (n+1) xs]

theorem enumFrom_map_rank :
    ∀ (n : ℕ) (l : List α), (List.enumFrom n l).map (fun p => p.1 + 1) =
      List.range' (n+1) l.length
  | _, [] => rfl
  | n, x :: xs => by
      simp only [List.enumFrom, List.map_cons, List.length_cons, List.range']
      rw [enumFrom_map_rank (n+1) xs]

end JsList

/-! ## Daily sector stats capture (`captureDailySectorStats`, part_019) -/

namespace Sector

/-- An enriched mover: market-movers row plus the sector obtained from
`analyzeStockValue` (`'Unknown'` when unavailable). -/
structure Stock where
  symbol : String
  sector : String
  volume : ℚ
  changePercent : ℚ
deriving DecidableEq, Repr

/-- A `statsToSave` entry (before the rank is attached at insert time). -/
structure SectorStat where
  date : ℤ
  sector : String
  stockCount : ℕ
  avgChange : ℚ
  totalVolume : ℚ
  leaderSymbol : Option String
  leaderChange : Option ℚ
deriving DecidableEq, Repr

/-- A persisted `SectorStat` row (`{ ...stat, rank: i + 1 }`). -/
structure SectorStatRow where
  date : ℤ
  sector : String
  stockCount : ℕ
  avgChange : ℚ
  totalVolume : ℚ
  leaderSymbol : Option String
  leaderChange : Option ℚ
  rank : ℕ
deriving DecidableEq, Repr

/-- Spread of a stat with its 1-based rank. -/
def rowOfStat (st : SectorStat) (rank : ℕ) : SectorStatRow :=
  { date := st.date, sector := st.sector, stockCount := st.stockCount
    avgChange := st.avgChange, totalVolume := st.totalVolume
    leaderSymbol := st.leaderSymbol, leaderChange := st.leaderChange, rank := rank }

/-- `stocks.reduce((prev, current) => prev.changePercent > current.changePercent
? prev : current)`; `none` models the (unreachable) reduce of an empty array. -/
def leaderOf : List Stock → Option Stock
  | [] => none
  | h :: t => some (t.foldl (fun prev cur =>
      if prev.changePercent > cur.changePercent then prev else cur) h)

/-- One `statsToSave` record for a sector group. -/
def mkStat (dayStart : ℤ) (sector : String) (stocks : List Stock) : SectorStat :=
  { date := dayStart
    sector := sector
    stockCount := stocks.length
    avgChange := (stocks.map (·.changePercent)).sum / stocks.length
    totalVolume := (stocks.map (·.volume)).sum
    leaderSymbol := (leaderOf stocks).map (·.symbol)
    leaderChange := (leaderOf stocks).map (·.changePercent) }

/-- `sectorGroups`: plain-object grouping of the enriched movers by sector,
skipping `'Unknown'`; keys in insertion order. -/
def sectorGroups (enriched : List Stock) : List (String × List Stock) :=
  (JsList.keysInOrder ((enriched.filter (fun st => st.sector ≠ "Unknown")).map (·.sector))).map
    (fun sec => (sec, enriched.filter (fun st => st.sector = sec)))

/-- `statsToSave` after the sort by descending `stockCount`
(`(a, b) => b.stockCount - a.stockCount`). -/
def statsSorted (enriched : List Stock) (dayStart : ℤ) : List SectorStat :=
  JsList.jsSort (fun a b => b.stockCount ≤ a.stockCount)
    ((sectorGroups enriched).map (fun g => mkStat dayStart g.1 g.2))

/-- `captureDailySectorStats` as a table transition: compute the per-sector
stats, sort by descending `stockCount`, delete the `[dayStart, dayStart +
24h)` partition, and insert the sorted stats with ranks `i + 1`. -/
def captureDailySectorStats (enriched : List Stock) (dayStart : ℤ)
    (table : List SectorStatRow) : List SectorStatRow :=
  let kept := table.filter
    (fun r => decide (¬ (dayStart ≤ r.date ∧ r.date < dayStart + 86400000)))
  kept ++ ((List.enumFrom 0 (statsSorted enriched dayStart)).map
    (fun p => rowOfStat p.2 (p.1 + 1)))

/-- The rows of the captured-date partition after a capture run. -/
def newRowsOf (enriched : List Stock) (dayStart : ℤ)
    (table : List SectorStatRow) : List SectorStatRow :=
  (captureDailySectorStats enriched dayStart table).filter
    (fun r => decide (r.date = dayStart))

theorem snd_mem_enumFrom {α : Type*} :
    ∀ (n : ℕ) (l : List α) (p : ℕ × α), p ∈ List.enumFrom n l → p.2 ∈ l
  | _, [], _, h => by cases h
  | n, x :: xs, p, h => by
      rcases List.mem_cons.mp h with rfl | h
      · exact List.mem_cons_self _ _
      · exact List.mem_cons_of_mem _ (snd_mem_enumFrom (n+1) xs p h)

theorem date_mem_statsSorted (enriched : List Stock) (dayStart : ℤ) :
    ∀ st ∈ statsSorted enriched dayStart, st.date = dayStart := by
  intro st hst
  have := (JsList.jsSort_perm _ _).mem_iff.mp hst
  obtain ⟨g, -, rfl⟩ := List.mem_map.mp this
  rfl

theorem newRows_eq (enriched : List Stock) (dayStart : ℤ) (table : List SectorStatRow) :
    newRowsOf enriched dayStart table =
      (List.enumFrom 0 (statsSorted enriched dayStart)).map
        (fun p => rowOfStat p.2 (p.1 + 1)) := by
  unfold newRowsOf captureDailySectorStats
  rw [List.filter_append]
  have h1 : (table.filter
      (fun r => decide (¬ (dayStart ≤ r.date ∧ r.date < dayStart + 86400000)))).filter
      (fun r => decide (r.date = dayStart)) = [] := by
    rw [List.filter_eq_nil_iff]
    intro r hr
    have hq := List.of_mem_filter hr
    simp only [decide_eq_true_eq] at hq ⊢
    intro hd
    exact hq ⟨le_of_eq hd.symm, by omega⟩
  have h2 : ((List.enumFrom 0 (statsSorted enriched dayStart)).map
      (fun p => rowOfStat p.2 (p.1 + 1))).filter
      (fun r => decide (r.date = dayStart)) =
      (List.enumFrom 0 (statsSorted enriched dayStart)).map
        (fun p => rowOfStat p.2 (p.1 + 1)) := by
    rw [List.filter_eq_self]
    intro r hr
    obtain ⟨p, hp, rfl⟩ := List.mem_map.mp hr
    have := date_mem_statsSorted enriched dayStart p.2 (snd_mem_enumFrom 0 _ p hp)
    simpa [rowOfStat] using this
  rw [h1, h2, List.nil_append]

end Sector

namespace Sector

theorem sector_map_statsSorted (enriched : List Stock) (dayStart : ℤ) :
    List.Perm ((statsSorted enriched dayStart).map SectorStat.sector)
      (JsList.keysInOrder ((enriched.filter (fun st => st.sector ≠ "Unknown")).map
        (·.sector))) := by
  have hperm := (JsList.jsSort_perm
    (fun a b => decide (b.stockCount ≤ a.stockCount))
    ((sectorGroups enriched).map (fun g => mkStat dayStart g.1 g.2))).map SectorStat.sector
  refine hperm.trans (List.Perm.of_eq ?_)
  rw [sectorGroups, List.map_map, List.map_map]
  show List.map (fun sec => sec) _ = _
  simp

end Sector

/-- C9: after a capture run the rows of the captured date partition are one
per (non-Unknown) sector with dense ranks `1..N` in order of nonincreasing
`stockCount`, and the table is the old rows outside the partition plus these
new rows (full replacement of the partition). -/
theorem C9_sector_stats_capture (enriched : List Sector.Stock) (dayStart : ℤ)
    (table : List Sector.SectorStatRow) :
    Sector.captureDailySectorStats enriched dayStart table =
      table.filter (fun r => decide (¬ (dayStart ≤ r.date ∧ r.date < dayStart + 86400000))) ++
        Sector.newRowsOf enriched dayStart table ∧
    (Sector.newRowsOf enriched dayStart table).map Sector.SectorStatRow.rank =
      List.range' 1 (Sector.newRowsOf enriched dayStart table).length ∧
    ((Sector.newRowsOf enriched dayStart table).map Sector.SectorStatRow.stockCount).Pairwise
      (fun a b => b ≤ a) ∧
    ((Sector.newRowsOf enriched dayStart table).map Sector.SectorStatRow.sector).Nodup ∧
    (∀ sec, sec ∈ (Sector.newRowsOf enriched dayStart table).map Sector.SectorStatRow.sector ↔
      sec ≠ "Unknown" ∧ sec ∈ enriched.map Sector.Stock.sector) := by
  have hlen : (Sector.newRowsOf enriched dayStart table).length =
      (Sector.statsSorted enriched dayStart).length := by
    rw [Sector.newRows_eq]
    simp
  have hsec : (Sector.newRowsOf enriched dayStart table).map Sector.SectorStatRow.sector =
      (Sector.statsSorted enriched dayStart).map Sector.SectorStat.sector := by
    rw [Sector.newRows_eq, List.map_map]
    exact JsList.enumFrom_map_snd (fun st : Sector.SectorStat => st.sector) 0 _
  have hcount : (Sector.newRowsOf enriched dayStart table).map Sector.SectorStatRow.stockCount =
      (Sector.statsSorted enriched dayStart).map Sector.SectorStat.stockCount := by
    rw [Sector.newRows_eq, List.map_map]
    exact JsList.enumFrom_map_snd (fun st : Sector.SectorStat => st.stockCount) 0 _
  have hperm := Sector.sector_map_statsSorted enriched dayStart
  refine ⟨?_, ?_, ?_, ?_, ?_⟩
  · rw [Sector.newRows_eq]
    rfl
  · rw [hlen, Sector.newRows_eq, List.map_map]
    exact JsList.enumFrom_map_rank 0 _
  · rw [hcount, List.pairwise_map]
    refine List.Pairwise.imp (fun h => of_decide_eq_true h)
      (JsList.jsSort_pairwise ?_ ?_ _)
    · intro a b
      rcases Nat.le_total b.stockCount a.stockCount with h | h
      · exact Or.inl (decide_eq_true h)
      · exact Or.inr (decide_eq_true h)
    · intro a b c hab hbc
      exact decide_eq_true (le_trans (of_decide_eq_true hbc) (of_decide_eq_true hab))
  · rw [hsec]
    exact hperm.nodup_iff.mpr (JsList.nodup_keysInOrder _)
  · intro sec
    rw [hsec]
    rw [hperm.mem_iff, JsList.mem_keysInOrder]
    constructor
    · intro h
      obtain ⟨st, hst, rfl⟩ := List.mem_map.mp h
      have := List.mem_filter.mp hst
      refine ⟨by simpa using this.2, List.mem_map.mpr ⟨st, this.1, rfl⟩⟩
    · rintro ⟨hne, h⟩
      obtain ⟨st, hst, rfl⟩ := List.mem_map.mp h
      exact List.mem_map.mpr ⟨st, List.mem_filter.mpr ⟨hst, by simpa using hne⟩, rfl⟩

/-! ## Sentiment aggregation (`src/worker/options/sentiment.ts`)

JavaScript numbers here flow through `Math.pow`, `Math.tanh` and `Math.exp`,
so this module is modelled over `ℝ`.  A possibly-`Infinity` age is
`Option ℝ` (`none` = `Infinity`); the put/call ratio, which the code can set
to `Infinity`, is the sum type `JsNum`. -/

/-- A finite real or `Infinity`. -/
inductive JsNum where
  | fin (x : ℝ)
  | inf

/-- Spot-confirmation tag. -/
inductive SpotConf where
  | strong
  | weak
  | contradiction
deriving DecidableEq, Repr

namespace Sent

/-- The slice of a signal read by `aggregateSentiment` and
`computeExtendedSentiment`. -/
structure Signal where
  notional : ℝ
  type : OptionType
  direction : Direction
  pos : ℝ
  ageMin : Option ℝ
  hedgeScore : ℝ
  isComboHedge : Bool
  moneyness : Option ℝ
  marketCap : Option ℝ
  iv : ℝ
  traderType : TraderType
  spotConfirmation : Option SpotConf
  daysToEarnings : Option ℝ

/-- The base sentiment record returned by `aggregateSentiment`. -/
structure SymbolSentimentBase where
  symbol : String
  bullishNotional : ℝ
  bearishNotional : ℝ
  totalNotional : ℝ
  putNotional : ℝ
  callNotional : ℝ
  putCallRatio : JsNum
  askBias : ℝ
  sentiment : ℝ

/-- The put/call ratio conditional (`put / call`, `Infinity` when only puts,
`0` when neither side has notional), shared by `aggregateSentiment` and
`assembleResult`. -/
noncomputable def pcrOf (putN callN : ℝ) : JsNum :=
  if callN > 0 then JsNum.fin (putN / callN)
  else if putN > 0 then JsNum.inf
  else JsNum.fin 0

/-- The `=== Infinity ? null : value` conversion of `assembleResult`. -/
def toNullable : JsNum → Option ℝ
  | JsNum.inf => none
  | JsNum.fin x => some x

/-- `aggregateSentiment(signals, symbol)`: the loop accumulators written as
sums over the signals satisfying each accumulator's condition. -/
noncomputable def aggregateSentiment (signals : List Signal) (symbol : String) :
    SymbolSentimentBase :=
  let bullish := ((signals.filter (fun s =>
    (s.type = OptionType.call ∧ s.direction = Direction.buy) ∨
    (s.type ≠ OptionType.call ∧ s.direction = Direction.sell))).map (·.notional)).sum
  let bearish := ((signals.filter (fun s =>
    (s.type = OptionType.call ∧ s.direction = Direction.sell) ∨
    (s.type ≠ OptionType.call ∧ s.direction = Direction.buy))).map (·.notional)).sum
  let askNotional := ((signals.filter (fun s => s.pos ≥ 66/100)).map (·.notional)).sum
  let totalNotional := (signals.map (·.notional)).sum
  let putNotional := ((signals.filter (fun s => s.type ≠ OptionType.call)).map (·.notional)).sum
  let callNotional := ((signals.filter (fun s => s.type = OptionType.call)).map (·.notional)).sum
  let askBias := if totalNotional > 0 then askNotional / totalNotional else 0
  let putCallRatio : JsNum := pcrOf putNotional callNotional
  let sentimentScore :=
    if totalNotional > 0 then
      100 * (bullish - bearish) / totalNotional + 20 * (askBias - 1/2)
    else 0
  { symbol := symbol
    bullishNotional := bullish
    bearishNotional := bearish
    totalNotional := totalNotional
    putNotional := putNotional
    callNotional := callNotional
    putCallRatio := putCallRatio
    askBias := askBias
    sentiment := max (-100) (min 100 sentimentScore) }

/-- Aggregation policy (`'standard' | 'buyersOnly' | 'buyersOnlyAuxSP'`). -/
inductive AggPolicy where
  | standard
  | buyersOnly
  | buyersOnlyAuxSP
deriving DecidableEq, Repr

/-- Threshold-policy mode. -/
inductive ThresholdMode where
  | static
  | capratio
deriving DecidableEq, Repr

/-- `ThresholdPolicy` from `shared.ts`. -/
structure ThresholdPolicy where
  mode : ThresholdMode
  capRatio : Option ℝ := none
  capMin : Option ℝ := none
  capMax : Option ℝ := none
  staticMinBullish : Option ℝ := none

/-- Configuration of `computeExtendedSentiment`. -/
structure ExtConfig where
  windowMins : ℝ
  halfLifeMins : ℝ
  minBullishWindowNotional : ℝ
  alpha : Option ℝ := none
  thresholdPolicy : Option ThresholdPolicy := none
  aggregationPolicy : Option AggPolicy := none
  auxShortPutWeight : Option ℝ := none

/-- `processConfiguration`: clamp half-life to `≥ 1`, `alpha` to `[0,1]`
(default `0.5`), policy default `'standard'`, aux weight to `[0,1]` (default
`0.35`). -/
noncomputable def processConfiguration (config : ExtConfig) : ℝ × ℝ × AggPolicy × ℝ :=
  let hl := max 1 config.halfLifeMins
  let alphaVal := match config.alpha with
    | some a => max 0 (min 1 a)
    | none => 1/2
  let policy := config.aggregationPolicy.getD AggPolicy.standard
  let auxWeight := match config.auxShortPutWeight with
    | some w => max 0 (min 1 w)
    | none => 35/100
  (hl, alphaVal, policy, auxWeight)

/-- `applyAggregationPolicy`: buyers-only policies keep only `buy` signals. -/
def applyAggregationPolicy (signals : List Signal) (policy : AggPolicy) : List Signal :=
  if policy = AggPolicy.buyersOnly ∨ policy = AggPolicy.buyersOnlyAuxSP then
    signals.filter (fun s => s.direction = Direction.buy)
  else signals

/-- Accumulator record of `calculateDecayedMetrics`. -/
structure Metrics where
  bullishD : ℝ := 0
  bearishD : ℝ := 0
  totalD : ℝ := 0
  putD : ℝ := 0
  callD : ℝ := 0
  askD : ℝ := 0
  bullishDAdj : ℝ := 0
  bearishDAdj : ℝ := 0
  totalDAdj : ℝ := 0
  putDAdj : ℝ := 0
  callDAdj : ℝ := 0
  askDAdj : ℝ := 0
  auxSPContribution : ℝ := 0
  winBullish : ℝ := 0
  winBearish : ℝ := 0
  withinCount : ℕ := 0
  withinAges : List ℝ := []
  lastTradeMinAgo : Option ℝ := none
  hedgeNotionalD : ℝ := 0
  comboNotionalD : ℝ := 0

/-- One iteration of the `calculateDecayedMetrics` loop, written per
accumulator field: each field carries exactly the guard under which the
sequential loop body updates it (the `continue` for signals excluded by the
policy guards every accumulation after step 2 of the loop). -/
noncomputable def decayStep (hl alphaVal : ℝ) (policy : AggPolicy) (auxWeight windowMins : ℝ)
    (m : Metrics) (s : Signal) : Metrics :=
  let age := s.ageMin
  let w : ℝ := match age with
    | some a => (1/2 : ℝ) ^ (a / hl)
    | none => 0
  let nD := s.notional * w
  let nDW := nD * (1 - alphaVal * s.hedgeScore)
  let isFor :=
    policy = AggPolicy.standard ∨
    (policy = AggPolicy.buyersOnly ∧ s.direction = Direction.buy) ∨
    (policy = AggPolicy.buyersOnlyAuxSP ∧ s.direction = Direction.buy)
  let isCall := s.type = OptionType.call
  let isBuy := s.direction = Direction.buy
  let isSell := s.direction = Direction.sell
  { lastTradeMinAgo := match m.lastTradeMinAgo, age with
      | cur, none => cur
      | none, some a => some a
      | some cur, some a => if a < cur then some a else some cur
    totalD := m.totalD + nD
    totalDAdj := m.totalDAdj + nDW
    askD := if s.pos ≥ 66/100 then m.askD + nD else m.askD
    askDAdj := if s.pos ≥ 66/100 then m.askDAdj + nDW else m.askDAdj
    callD := if isFor ∧ isCall then m.callD + nD else m.callD
    callDAdj := if isFor ∧ isCall then m.callDAdj + nDW else m.callDAdj
    putD := if isFor ∧ ¬ isCall then m.putD + nD else m.putD
    putDAdj := if isFor ∧ ¬ isCall then m.putDAdj + nDW else m.putDAdj
    bullishD := if isFor ∧ ((isCall ∧ isBuy) ∨ (¬ isCall ∧ isSell)) then
      m.bullishD + nD else m.bullishD
    bullishDAdj := if isFor ∧ ((isCall ∧ isBuy) ∨ (¬ isCall ∧ isSell)) then
      m.bullishDAdj + nDW else m.bullishDAdj
    bearishD := if isFor ∧ ((isCall ∧ isSell) ∨ (¬ isCall ∧ isBuy)) then
      m.bearishD + nD else m.bearishD
    bearishDAdj := if isFor ∧ ((isCall ∧ isSell) ∨ (¬ isCall ∧ isBuy)) then
      m.bearishDAdj + nDW else m.bearishDAdj
    auxSPContribution := if isFor ∧ ¬ isCall ∧ isSell ∧ policy = AggPolicy.buyersOnlyAuxSP ∧
        (s.moneyness.elim false (fun mv => decide (mv ≤ 95/100))) = true then
      m.auxSPContribution + nDW * auxWeight else m.auxSPContribution
    withinCount := match age with
      | some a => if isFor ∧ a ≤ windowMins then m.withinCount + 1 else m.withinCount
      | none => m.withinCount
    withinAges := match age with
      | some a => if isFor ∧ a ≤ windowMins then m.withinAges ++ [a] else m.withinAges
      | none => m.withinAges
    winBullish := match age with
      | some a => if isFor ∧ a ≤ windowMins ∧ ((isCall ∧ isBuy) ∨ (¬ isCall ∧ isSell)) then
          m.winBullish + s.notional else m.winBullish
      | none => m.winBullish
    winBearish := match age with
      | some a => if isFor ∧ a ≤ windowMins ∧ ((isCall ∧ isSell) ∨ (¬ isCall ∧ isBuy)) then
          m.winBearish + s.notional else m.winBearish
      | none => m.winBearish
    hedgeNotionalD := if isFor then m.hedgeNotionalD + nD * s.hedgeScore else m.hedgeNotionalD
    comboNotionalD := if isFor ∧ s.isComboHedge then m.comboNotionalD + nD
      else m.comboNotionalD }

/-- `calculateDecayedMetrics` as a fold of `decayStep`. -/
noncomputable def calculateDecayedMetrics (signals : List Signal) (hl alphaVal : ℝ)
    (policy : AggPolicy) (auxWeight windowMins : ℝ) : Metrics :=
  signals.foldl (decayStep hl alphaVal policy auxWeight windowMins) {}

end Sent

namespace Sent

/-- Median of the sorted market caps (`calculateMarketCapAndThreshold`). -/
noncomputable def medianOf (caps : List ℝ) : ℝ :=
  match caps with
  | [] => 0
  | _ :: _ =>
    let sorted := JsList.jsSort (fun a b => decide (a ≤ b)) caps
    let mid := sorted.length / 2
    if sorted.length % 2 = 1 then sorted.getD mid 0
    else (sorted.getD (mid - 1) 0 + sorted.getD mid 0) / 2

/-- `calculateMarketCapAndThreshold`: median market cap of the effective
signals and the dynamic bullish-notional threshold. -/
noncomputable def calculateMarketCapAndThreshold (signalsEff : List Signal)
    (minBullishWindowNotional : ℝ) (thresholdPolicy : Option ThresholdPolicy) : ℝ × ℝ :=
  let marketCaps := (signalsEff.filterMap (·.marketCap)).filter (fun v => decide (v > 0))
  let marketCap := medianOf marketCaps
  let thresholdUsed :=
    match thresholdPolicy with
    | some tp =>
      if tp.mode = ThresholdMode.capratio then
        if marketCap > 0 then
          let capRatio := tp.capRatio.getD (2/1000000)
          let capMin := tp.capMin.getD 200000
          let capMax := tp.capMax.getD 5000000
          max capMin (min capMax (marketCap * capRatio))
        else tp.staticMinBullish.getD minBullishWindowNotional
      else if tp.mode = ThresholdMode.static then
        tp.staticMinBullish.getD minBullishWindowNotional
      else minBullishWindowNotional
    | none => minBullishWindowNotional
  (marketCap, thresholdUsed)

/-- Window and hedge summaries (`calculateWindowAndHedgeMetrics`). -/
structure WindowHedge where
  withinMinAge : Option ℝ
  withinMedianAge : Option ℝ
  hedgeSignalsCount : ℕ
  hedgeNotionalShare : ℝ
  comboHedgeShare : ℝ

/-- `calculateWindowAndHedgeMetrics`; `none` models `Infinity` for the empty
window. -/
noncomputable def calculateWindowAndHedgeMetrics (withinAges : List ℝ)
    (totalD hedgeNotionalD comboNotionalD : ℝ) (signals : List Signal) : WindowHedge :=
  let withinMinAge := match withinAges with
    | [] => none
    | h :: t => some (t.foldl min h)
  let withinMedianAge := match withinAges with
    | [] => none
    | _ :: _ =>
      let as := JsList.jsSort (fun a b => decide (a ≤ b)) withinAges
      let mid := as.length / 2
      some (if as.length % 2 = 1 then as.getD mid 0
        else (as.getD (mid - 1) 0 + as.getD mid 0) / 2)
  { withinMinAge := withinMinAge
    withinMedianAge := withinMedianAge
    hedgeSignalsCount := (signals.filter (fun s => decide (s.hedgeScore > 0))).length
    hedgeNotionalShare := if totalD > 0 then hedgeNotionalD / totalD else 0
    comboHedgeShare := if totalD > 0 then comboNotionalD / totalD else 0 }

/-- The extended sentiment record (`SymbolSentimentExtended`). -/
structure SymbolSentimentExtended where
  symbol : String
  bullishNotional : ℝ
  bearishNotional : ℝ
  totalNotional : ℝ
  putNotional : ℝ
  callNotional : ℝ
  putCallRatio : JsNum
  askBias : ℝ
  sentiment : ℝ
  currentPrice : ℝ
  bullishNotionalDecayed : ℝ
  bearishNotionalDecayed : ℝ
  totalNotionalDecayed : ℝ
  putNotionalDecayed : ℝ
  callNotionalDecayed : ℝ
  putCallRatioDecayed : Option ℝ
  askBiasDecayed : ℝ
  sentimentDecayed : ℝ
  bullishNotionalDecayedAdj : ℝ
  bearishNotionalDecayedAdj : ℝ
  totalNotionalDecayedAdj : ℝ
  putNotionalDecayedAdj : ℝ
  callNotionalDecayedAdj : ℝ
  putCallRatioDecayedAdj : Option ℝ
  askBiasDecayedAdj : ℝ
  sentimentDecayedAdj : ℝ
  windowBullishNotionalRaw : ℝ
  windowBearishNotionalRaw : ℝ
  windowBullishOverThreshold : Bool
  windowBullishThresholdUsed : ℝ
  hedgeSignalsCount : ℕ
  hedgeNotionalShare : ℝ
  comboHedgeShare : ℝ
  windowMins : ℝ
  halfLifeMins : ℝ
  lastTradeMinAgo : Option ℝ
  moneyFlowStrength : ℝ
  avgIV : ℝ
  institutionalShare : ℝ
  daysToEarnings : Option ℝ
  spotConfirmation : Option SpotConf

/-- `assembleResult`: final scoring (tanh compression with confidence,
clamped to `[-100, 100]`), the `Infinity → null` conversion of the decayed
put/call ratios, and the enhanced fields. -/
noncomputable def assembleResult (base : SymbolSentimentBase) (currentPrice : ℝ)
    (metrics : Metrics) (wh : WindowHedge) (windowMins halfLifeMins thresholdUsed : ℝ)
    (symbol : String) (auxSPContribution moneyFlowStrength : ℝ)
    (signals : List Signal) : SymbolSentimentExtended :=
  let askBiasDecayed := if metrics.totalD > 0 then metrics.askD / metrics.totalD else 0
  let putCallRatioDecayed : JsNum := pcrOf metrics.putD metrics.callD
  let K : ℝ := 1
  let BETA : ℝ := 5
  let coreRaw := if metrics.totalD > 0 then
      (metrics.bullishD - metrics.bearishD) / metrics.totalD else 0
  let askRaw := askBiasDecayed - 1/2
  let coreScore := 100 * Real.tanh (K * coreRaw)
  let askScore := BETA * askRaw
  let conf := if metrics.totalD > 0 ∧ thresholdUsed > 0 then
      1 - Real.exp (-(metrics.totalD / thresholdUsed)) else 0
  let sentimentDecayed := max (-100) (min 100 ((coreScore + askScore) * conf))
  let askBiasDecayedAdj :=
    if metrics.totalDAdj > 0 then metrics.askDAdj / metrics.totalDAdj else 0
  let putCallRatioDecayedAdj : JsNum := pcrOf metrics.putDAdj metrics.callDAdj
  let coreAdj := if metrics.totalDAdj > 0 then
      (metrics.bullishDAdj + auxSPContribution - metrics.bearishDAdj) / metrics.totalDAdj
    else 0
  let askAdj := askBiasDecayedAdj - 1/2
  let coreScoreAdj := 100 * Real.tanh (K * coreAdj)
  let askScoreAdj := BETA * askAdj
  let confAdj := if metrics.totalDAdj > 0 ∧ thresholdUsed > 0 then
      1 - Real.exp (-(metrics.totalDAdj / thresholdUsed)) else 0
  let sentimentDecayedAdj := max (-100) (min 100 ((coreScoreAdj + askScoreAdj) * confAdj))
  { symbol := symbol
    bullishNotional := base.bullishNotional
    bearishNotional := base.bearishNotional
    totalNotional := base.totalNotional
    putNotional := base.putNotional
    callNotional := base.callNotional
    putCallRatio := base.putCallRatio
    askBias := base.askBias
    sentiment := base.sentiment
    currentPrice := currentPrice
    bullishNotionalDecayed := metrics.bullishD
    bearishNotionalDecayed := metrics.bearishD
    totalNotionalDecayed := metrics.totalD
    putNotionalDecayed := metrics.putD
    callNotionalDecayed := metrics.callD
    putCallRatioDecayed := toNullable putCallRatioDecayed
    askBiasDecayed := askBiasDecayed
    sentimentDecayed := sentimentDecayed
    bullishNotionalDecayedAdj := metrics.bullishDAdj
    bearishNotionalDecayedAdj := metrics.bearishDAdj
    totalNotionalDecayedAdj := metrics.totalDAdj
    putNotionalDecayedAdj := metrics.putDAdj
    callNotionalDecayedAdj := metrics.callDAdj
    putCallRatioDecayedAdj := toNullable putCallRatioDecayedAdj
    askBiasDecayedAdj := askBiasDecayedAdj
    sentimentDecayedAdj := sentimentDecayedAdj
    windowBullishNotionalRaw := metrics.winBullish
    windowBearishNotionalRaw := metrics.winBearish
    windowBullishOverThreshold := decide (metrics.winBullish ≥ thresholdUsed)
    windowBullishThresholdUsed := thresholdUsed
    hedgeSignalsCount := wh.hedgeSignalsCount
    hedgeNotionalShare := wh.hedgeNotionalShare
    comboHedgeShare := wh.comboHedgeShare
    windowMins := windowMins
    halfLifeMins := halfLifeMins
    lastTradeMinAgo := metrics.lastTradeMinAgo
    moneyFlowStrength := moneyFlowStrength
    avgIV := if signals.length > 0 then (signals.map (·.iv)).sum / signals.length else 0
    institutionalShare := if signals.length > 0 then
        ((signals.filter (fun s => s.traderType = TraderType.institutional)).length : ℝ) /
          signals.length
      else 0
    daysToEarnings := match signals with
      | [] => none
      | s :: _ => s.daysToEarnings
    spotConfirmation := match signals with
      | [] => none
      | _ :: _ =>
        let confirmations := signals.filterMap (·.spotConfirmation)
        let strong := (confirmations.filter (fun c => c = SpotConf.strong)).length
        let contradiction := (confirmations.filter (fun c => c = SpotConf.contradiction)).length
        if strong > contradiction * 2 then some SpotConf.strong
        else if contradiction > strong * 2 then some SpotConf.contradiction
        else some SpotConf.weak }

/-- `computeExtendedSentiment`: ask-bias/total metrics from the full signal
set under the `'standard'` policy, sentiment metrics from the
policy-filtered set, merged, then assembled. -/
noncomputable def computeExtendedSentiment (signals : List Signal)
    (base : SymbolSentimentBase) (currentPrice : ℝ) (config : ExtConfig)
    (moneyFlowStrength : ℝ) : SymbolSentimentExtended :=
  let pc := processConfiguration config
  let hl := pc.1
  let alphaVal := pc.2.1
  let policy := pc.2.2.1
  let auxWeight := pc.2.2.2
  let marketMetrics := calculateDecayedMetrics signals hl alphaVal AggPolicy.standard 0
    config.windowMins
  let signalsEff := applyAggregationPolicy signals policy
  let ct := calculateMarketCapAndThreshold signalsEff config.minBullishWindowNotional
    config.thresholdPolicy
  let thresholdUsed := ct.2
  let sentimentMetrics := calculateDecayedMetrics signalsEff hl alphaVal policy auxWeight
    config.windowMins
  let metrics := { sentimentMetrics with
    askD := marketMetrics.askD
    totalD := marketMetrics.totalD
    askDAdj := marketMetrics.askDAdj
    totalDAdj := marketMetrics.totalDAdj }
  let wh := calculateWindowAndHedgeMetrics metrics.withinAges metrics.totalD
    metrics.hedgeNotionalD metrics.comboNotionalD signals
  assembleResult base currentPrice metrics wh config.windowMins config.halfLifeMins
    thresholdUsed base.symbol metrics.auxSPContribution moneyFlowStrength signals

end Sent

namespace Sent

/-- The `clamp(x, -100, 100)` of the sentiment scores stays in range. -/
theorem clamp100_bounds (x : ℝ) :
    -100 ≤ max (-100) (min 100 x) ∧ max (-100) (min 100 x) ≤ 100 :=
  ⟨le_max_left _ _, max_le (by norm_num) (min_le_left _ _)⟩

end Sent

/-- C1: the instantaneous sentiment and both decayed sentiment scores lie in
`[-100, 100]` for every signal list and configuration, and all three are `0`
on the empty signal list. -/
theorem C1_sentiment_range (signals : List Sent.Signal) (symbol : String)
    (base : Sent.SymbolSentimentBase) (currentPrice : ℝ) (config : Sent.ExtConfig)
    (moneyFlowStrength : ℝ) :
    (-100 ≤ (Sent.aggregateSentiment signals symbol).sentiment ∧
      (Sent.aggregateSentiment signals symbol).sentiment ≤ 100) ∧
    (-100 ≤ (Sent.computeExtendedSentiment signals base currentPrice config
        moneyFlowStrength).sentimentDecayed ∧
      (Sent.computeExtendedSentiment signals base currentPrice config
        moneyFlowStrength).sentimentDecayed ≤ 100) ∧
    (-100 ≤ (Sent.computeExtendedSentiment signals base currentPrice config
        moneyFlowStrength).sentimentDecayedAdj ∧
      (Sent.computeExtendedSentiment signals base currentPrice config
        moneyFlowStrength).sentimentDecayedAdj ≤ 100) ∧
    ((Sent.aggregateSentiment ([] : List Sent.Signal) symbol).sentiment = 0 ∧
      (Sent.computeExtendedSentiment [] base currentPrice config
        moneyFlowStrength).sentimentDecayed = 0 ∧
      (Sent.computeExtendedSentiment [] base currentPrice config
        moneyFlowStrength).sentimentDecayedAdj = 0) := by
  refine ⟨Sent.clamp100_bounds _, Sent.clamp100_bounds _, Sent.clamp100_bounds _, ?_, ?_, ?_⟩
  · simp only [Sent.aggregateSentiment, List.filter_nil, List.map_nil, List.sum_nil]
    norm_num
  · simp only [Sent.computeExtendedSentiment, Sent.applyAggregationPolicy,
      Sent.calculateDecayedMetrics, List.filter_nil, List.foldl_nil, ite_self,
      Sent.assembleResult]
    norm_num
  · simp only [Sent.computeExtendedSentiment, Sent.applyAggregationPolicy,
      Sent.calculateDecayedMetrics, List.filter_nil, List.foldl_nil, ite_self,
      Sent.assembleResult]
    norm_num

/-- C4: the four market-wide decayed fields — `askBiasDecayed`,
`totalNotionalDecayed`, `askBiasDecayedAdj`, `totalNotionalDecayedAdj` — are
computed on the full unfiltered signal set and therefore do not depend on the
aggregation policy. -/
theorem C4_ask_bias_policy_independent (signals : List Sent.Signal)
    (base : Sent.SymbolSentimentBase) (currentPrice : ℝ) (config : Sent.ExtConfig)
    (moneyFlowStrength : ℝ) (p1 p2 : Option Sent.AggPolicy) :
    (Sent.computeExtendedSentiment signals base currentPrice
        { config with aggregationPolicy := p1 } moneyFlowStrength).askBiasDecayed =
      (Sent.computeExtendedSentiment signals base currentPrice
        { config with aggregationPolicy := p2 } moneyFlowStrength).askBiasDecayed ∧
    (Sent.computeExtendedSentiment signals base currentPrice
        { config with aggregationPolicy := p1 } moneyFlowStrength).totalNotionalDecayed =
      (Sent.computeExtendedSentiment signals base currentPrice
        { config with aggregationPolicy := p2 } moneyFlowStrength).totalNotionalDecayed ∧
    (Sent.computeExtendedSentiment signals base currentPrice
        { config with aggregationPolicy := p1 } moneyFlowStrength).askBiasDecayedAdj =
      (Sent.computeExtendedSentiment signals base currentPrice
        { config with aggregationPolicy := p2 } moneyFlowStrength).askBiasDecayedAdj ∧
    (Sent.computeExtendedSentiment signals base currentPrice
        { config with aggregationPolicy := p1 } moneyFlowStrength).totalNotionalDecayedAdj =
      (Sent.computeExtendedSentiment signals base currentPrice
        { config with aggregationPolicy := p2 } moneyFlowStrength).totalNotionalDecayedAdj :=
  ⟨rfl, rfl, rfl, rfl⟩

namespace Sent

/-- The clamped `alpha` of `processConfiguration` lies in `[0, 1]`. -/
theorem alphaVal_bounds (config : ExtConfig) :
    0 ≤ (processConfiguration config).2.1 ∧ (processConfiguration config).2.1 ≤ 1 := by
  unfold processConfiguration
  cases config.alpha with
  | none => norm_num
  | some a =>
      refine ⟨le_max_left _ _, max_le (by norm_num) ?_⟩
      exact min_le_left _ _

/-- Signals surviving the aggregation policy come from the input list. -/
theorem mem_applyAggregationPolicy {signals : List Signal} {policy : AggPolicy} {s : Signal}
    (h : s ∈ applyAggregationPolicy signals policy) : s ∈ signals := by
  unfold applyAggregationPolicy at h
  split at h
  · exact (List.mem_filter.mp h).1
  · exact h

/-- Along the `calculateDecayedMetrics` fold, the four decayed put/call
accumulators stay nonnegative when every signal has nonnegative notional and
a hedge score in `[0, 1]` and `alpha` is clamped to `[0, 1]`. -/
theorem foldl_decay_nonneg (hl alphaVal : ℝ) (policy : AggPolicy) (auxWeight windowMins : ℝ)
    (ha0 : 0 ≤ alphaVal) (ha1 : alphaVal ≤ 1) :
    ∀ (signals : List Signal) (m : Metrics),
      (∀ s ∈ signals, 0 ≤ s.notional ∧ 0 ≤ s.hedgeScore ∧ s.hedgeScore ≤ 1) →
      0 ≤ m.callD → 0 ≤ m.putD → 0 ≤ m.callDAdj → 0 ≤ m.putDAdj →
      0 ≤ (signals.foldl (decayStep hl alphaVal policy auxWeight windowMins) m).callD ∧
      0 ≤ (signals.foldl (decayStep hl alphaVal policy auxWeight windowMins) m).putD ∧
      0 ≤ (signals.foldl (decayStep hl alphaVal policy auxWeight windowMins) m).callDAdj ∧
      0 ≤ (signals.foldl (decayStep hl alphaVal policy auxWeight windowMins) m).putDAdj
  | [], m, _, h1, h2, h3, h4 => ⟨h1, h2, h3, h4⟩
  | s :: ss, m, hsig, h1, h2, h3, h4 => by
      have hs := hsig s (List.mem_cons_self s ss)
      have hw : 0 ≤ (match s.ageMin with
          | some a => (1/2 : ℝ) ^ (a / hl)
          | none => (0 : ℝ)) := by
        cases s.ageMin with
        | none => exact le_rfl
        | some a => exact Real.rpow_nonneg (by norm_num) _
      have hnD : 0 ≤ s.notional * (match s.ageMin with
          | some a => (1/2 : ℝ) ^ (a / hl)
          | none => (0 : ℝ)) := mul_nonneg hs.1 hw
      have hfac : 0 ≤ 1 - alphaVal * s.hedgeScore := by
        have := mul_le_one₀ ha1 hs.2.1 hs.2.2
        linarith
      have hnDW : 0 ≤ s.notional * (match s.ageMin with
          | some a => (1/2 : ℝ) ^ (a / hl)
          | none => (0 : ℝ)) * (1 - alphaVal * s.hedgeScore) := mul_nonneg hnD hfac
      rw [List.foldl_cons]
      refine foldl_decay_nonneg hl alphaVal policy auxWeight windowMins ha0 ha1 ss _
        (fun t ht => hsig t (List.mem_cons_of_mem s ht)) ?_ ?_ ?_ ?_
      · show 0 ≤ ite _ (m.callD + _) m.callD
        split
        · exact add_nonneg h1 hnD
        · exact h1
      · show 0 ≤ ite _ (m.putD + _) m.putD
        split
        · exact add_nonneg h2 hnD
        · exact h2
      · show 0 ≤ ite _ (m.callDAdj + _) m.callDAdj
        split
        · exact add_nonneg h3 hnDW
        · exact h3
      · show 0 ≤ ite _ (m.putDAdj + _) m.putDAdj
        split
        · exact add_nonneg h4 hnDW
        · exact h4

/-- Characterisation of the decayed put/call ratio field after the
`Infinity → null` conversion, for nonnegative notionals. -/
theorem pcr_char (putN callN : ℝ) (hc : 0 ≤ callN) (hp : 0 ≤ putN) :
    (toNullable (pcrOf putN callN) = none ↔ callN = 0 ∧ 0 < putN) ∧
    (0 < callN → toNullable (pcrOf putN callN) = some (putN / callN)) ∧
    (callN = 0 → putN = 0 → toNullable (pcrOf putN callN) = some 0) := by
  unfold pcrOf toNullable
  split_ifs with h1 h2
  · refine ⟨?_, fun _ => rfl, fun h0 _ => absurd h1 (by rw [h0]; exact lt_irrefl 0)⟩
    simp only [reduceCtorEq, false_iff, not_and]
    intro h0
    exact absurd h1 (by rw [h0]; exact lt_irrefl 0)
  · have hc0 : callN = 0 := le_antisymm (not_lt.1 h1) hc
    refine ⟨by simp [hc0, h2], fun h => absurd h h1, fun _ h0 => absurd h2 (by rw [h0]; exact lt_irrefl 0)⟩
  · have hp0 : putN = 0 := le_antisymm (not_lt.1 h2) hp
    exact ⟨by simp [hp0], fun h => absurd h h1, fun _ _ => rfl⟩

/-- The raw put/call ratio is `Infinity` when there is put notional but no
call notional. -/
theorem pcr_inf (putN callN : ℝ) (h1 : callN = 0) (h2 : 0 < putN) :
    pcrOf putN callN = JsNum.inf := by
  unfold pcrOf
  rw [if_neg (by rw [h1]; exact lt_irrefl 0), if_pos h2]

end Sent

/-- C10: the extended result's decayed put/call ratio fields are `null`
exactly when the corresponding decayed call notional is zero while the
decayed put notional is positive, and otherwise carry a finite value (`put /
call` when calls exist, `0` when both sides are zero) — while the
instantaneous `aggregateSentiment` ratio is `Infinity` in the analogous
case. -/
theorem C10_put_call_ratio_null (signals : List Sent.Signal) (symbol : String)
    (base : Sent.SymbolSentimentBase) (currentPrice : ℝ) (config : Sent.ExtConfig)
    (moneyFlowStrength : ℝ)
    (hsig : ∀ s ∈ signals, 0 ≤ s.notional ∧ 0 ≤ s.hedgeScore ∧ s.hedgeScore ≤ 1) :
    ((Sent.computeExtendedSentiment signals base currentPrice config
        moneyFlowStrength).putCallRatioDecayed = none ↔
      (Sent.computeExtendedSentiment signals base currentPrice config
        moneyFlowStrength).callNotionalDecayed = 0 ∧
      0 < (Sent.computeExtendedSentiment signals base currentPrice config
        moneyFlowStrength).putNotionalDecayed) ∧
    (0 < (Sent.computeExtendedSentiment signals base currentPrice config
        moneyFlowStrength).callNotionalDecayed →
      (Sent.computeExtendedSentiment signals base currentPrice config
        moneyFlowStrength).putCallRatioDecayed =
        some ((Sent.computeExtendedSentiment signals base currentPrice config
            moneyFlowStrength).putNotionalDecayed /
          (Sent.computeExtendedSentiment signals base currentPrice config
            moneyFlowStrength).callNotionalDecayed)) ∧
    ((Sent.computeExtendedSentiment signals base currentPrice config
        moneyFlowStrength).callNotionalDecayed = 0 →
      (Sent.computeExtendedSentiment signals base currentPrice config
        moneyFlowStrength).putNotionalDecayed = 0 →
      (Sent.computeExtendedSentiment signals base currentPrice config
        moneyFlowStrength).putCallRatioDecayed = some 0) ∧
    ((Sent.computeExtendedSentiment signals base currentPrice config
        moneyFlowStrength).putCallRatioDecayedAdj = none ↔
      (Sent.computeExtendedSentiment signals base currentPrice config
        moneyFlowStrength).callNotionalDecayedAdj = 0 ∧
      0 < (Sent.computeExtendedSentiment signals base currentPrice config
        moneyFlowStrength).putNotionalDecayedAdj) ∧
    (0 < (Sent.computeExtendedSentiment signals base currentPrice config
        moneyFlowStrength).callNotionalDecayedAdj →
      (Sent.computeExtendedSentiment signals base currentPrice config
        moneyFlowStrength).putCallRatioDecayedAdj =
        some ((Sent.computeExtendedSentiment signals base currentPrice config
            moneyFlowStrength).putNotionalDecayedAdj /
          (Sent.computeExtendedSentiment signals base currentPrice config
            moneyFlowStrength).callNotionalDecayedAdj)) ∧
    ((Sent.computeExtendedSentiment signals base currentPrice config
        moneyFlowStrength).callNotionalDecayedAdj = 0 →
      (Sent.computeExtendedSentiment signals base currentPrice config
        moneyFlowStrength).putNotionalDecayedAdj = 0 →
      (Sent.computeExtendedSentiment signals base currentPrice config
        moneyFlowStrength).putCallRatioDecayedAdj = some 0) ∧
    ((Sent.aggregateSentiment signals symbol).callNotional = 0 →
      0 < (Sent.aggregateSentiment signals symbol).putNotional →
      (Sent.aggregateSentiment signals symbol).putCallRatio = JsNum.inf) := by
  have ha := Sent.alphaVal_bounds config
  have hfold := Sent.foldl_decay_nonneg (Sent.processConfiguration config).1
    (Sent.processConfiguration config).2.1 (Sent.processConfiguration config).2.2.1
    (Sent.processConfiguration config).2.2.2 config.windowMins ha.1 ha.2
    (Sent.applyAggregationPolicy signals (Sent.processConfiguration config).2.2.1)
    {} (fun t ht => hsig t (Sent.mem_applyAggregationPolicy ht))
    le_rfl le_rfl le_rfl le_rfl
  obtain ⟨hc, hp, hca, hpa⟩ := hfold
  have h1 := Sent.pcr_char _ _ hc hp
  have h2 := Sent.pcr_char _ _ hca hpa
  exact ⟨h1.1, h1.2.1, h1.2.2, h2.1, h2.2.1, h2.2.2, fun hz hpz => Sent.pcr_inf _ _ hz hpz⟩

namespace Sent

/-- C10 witness signal: one fresh put trade of notional 5. -/
noncomputable def putOnlySignal : Signal :=
  { notional := 5
    type := OptionType.put
    direction := Direction.buy
    pos := 0
    ageMin := some 0
    hedgeScore := 0
    isComboHedge := false
    moneyness := none
    marketCap := none
    iv := 0
    traderType := TraderType.retail
    spotConfirmation := none
    daysToEarnings := none }

/-- C10 witness base record. -/
noncomputable def witnessBase : SymbolSentimentBase :=
  { symbol := "T"
    bullishNotional := 0
    bearishNotional := 0
    totalNotional := 0
    putNotional := 0
    callNotional := 0
    putCallRatio := JsNum.fin 0
    askBias := 0
    sentiment := 0 }

/-- C10 witness configuration. -/
noncomputable def witnessConfig : ExtConfig :=
  { windowMins := 60, halfLifeMins := 30, minBullishWindowNotional := 1 }

end Sent

/-- C10 witness: the characterisation instantiated on a one-put signal list
(whose hypotheses hold by computation). -/
theorem C10_put_call_ratio_null_witness :
    ((Sent.computeExtendedSentiment [Sent.putOnlySignal] Sent.witnessBase 10 Sent.witnessConfig
        0).putCallRatioDecayed = none ↔
      (Sent.computeExtendedSentiment [Sent.putOnlySignal] Sent.witnessBase 10 Sent.witnessConfig
        0).callNotionalDecayed = 0 ∧
      0 < (Sent.computeExtendedSentiment [Sent.putOnlySignal] Sent.witnessBase 10
        Sent.witnessConfig 0).putNotionalDecayed) ∧
    (0 < (Sent.computeExtendedSentiment [Sent.putOnlySignal] Sent.witnessBase 10
        Sent.witnessConfig 0).callNotionalDecayed →
      (Sent.computeExtendedSentiment [Sent.putOnlySignal] Sent.witnessBase 10 Sent.witnessConfig
        0).putCallRatioDecayed =
        some ((Sent.computeExtendedSentiment [Sent.putOnlySignal] Sent.witnessBase 10
            Sent.witnessConfig 0).putNotionalDecayed /
          (Sent.computeExtendedSentiment [Sent.putOnlySignal] Sent.witnessBase 10
            Sent.witnessConfig 0).callNotionalDecayed)) ∧
    ((Sent.computeExtendedSentiment [Sent.putOnlySignal] Sent.witnessBase 10 Sent.witnessConfig
        0).callNotionalDecayed = 0 →
      (Sent.computeExtendedSentiment [Sent.putOnlySignal] Sent.witnessBase 10 Sent.witnessConfig
        0).putNotionalDecayed = 0 →
      (Sent.computeExtendedSentiment [Sent.putOnlySignal] Sent.witnessBase 10 Sent.witnessConfig
        0).putCallRatioDecayed = some 0) ∧
    ((Sent.computeExtendedSentiment [Sent.putOnlySignal] Sent.witnessBase 10 Sent.witnessConfig
        0).putCallRatioDecayedAdj = none ↔
      (Sent.computeExtendedSentiment [Sent.putOnlySignal] Sent.witnessBase 10 Sent.witnessConfig
        0).callNotionalDecayedAdj = 0 ∧
      0 < (Sent.computeExtendedSentiment [Sent.putOnlySignal] Sent.witnessBase 10
        Sent.witnessConfig 0).putNotionalDecayedAdj) ∧
    (0 < (Sent.computeExtendedSentiment [Sent.putOnlySignal] Sent.witnessBase 10
        Sent.witnessConfig 0).callNotionalDecayedAdj →
      (Sent.computeExtendedSentiment [Sent.putOnlySignal] Sent.witnessBase 10 Sent.witnessConfig
        0).putCallRatioDecayedAdj =
        some ((Sent.computeExtendedSentiment [Sent.putOnlySignal] Sent.witnessBase 10
            Sent.witnessConfig 0).putNotionalDecayedAdj /
          (Sent.computeExtendedSentiment [Sent.putOnlySignal] Sent.witnessBase 10
            Sent.witnessConfig 0).callNotionalDecayedAdj)) ∧
    ((Sent.computeExtendedSentiment [Sent.putOnlySignal] Sent.witnessBase 10 Sent.witnessConfig
        0).callNotionalDecayedAdj = 0 →
      (Sent.computeExtendedSentiment [Sent.putOnlySignal] Sent.witnessBase 10 Sent.witnessConfig
        0).putNotionalDecayedAdj = 0 →
      (Sent.computeExtendedSentiment [Sent.putOnlySignal] Sent.witnessBase 10 Sent.witnessConfig
        0).putCallRatioDecayedAdj = some 0) ∧
    ((Sent.aggregateSentiment [Sent.putOnlySignal] "T").callNotional = 0 →
      0 < (Sent.aggregateSentiment [Sent.putOnlySignal] "T").putNotional →
      (Sent.aggregateSentiment [Sent.putOnlySignal] "T").putCallRatio = JsNum.inf) :=
  C10_put_call_ratio_null [Sent.putOnlySignal] "T" Sent.witnessBase 10 Sent.witnessConfig 0
    (by
      intro s hs
      rw [List.mem_singleton] at hs
      subst hs
      norm_num [Sent.putOnlySignal])

/-! ## Combo identification (`combos.ts`, concatenated into `processing.ts`)

`identifyCombos` mutates signals in place while iterating candidate pairs
whose grouping and ordering depend only on immutable signal fields.  The
embedding precomputes that pair sequence from the immutable fields and folds
a per-pair step over the signal list; `Date` parsing of ISO strings is an
environment parameter `dp` (epoch milliseconds). -/

namespace Combo

/-- The slice of `OptionSignalLite` read and written by `identifyCombos`. -/
structure Sig where
  type : OptionType
  strike : ℚ
  expiryISO : String
  lastTradeISO : String
  notional : ℚ
  volume : ℚ
  direction : Direction
  comboId : String
  comboType : String
  isComboHedge : Bool
  comboMatchTier : Option ℕ
deriving DecidableEq, Repr

/-- The immutable fields of a signal (never written by `identifyCombos`). -/
structure IView where
  type : OptionType
  strike : ℚ
  expiryISO : String
  lastTradeISO : String
  notional : ℚ
  volume : ℚ
  direction : Direction
deriving DecidableEq, Repr

/-- Projection to the immutable fields. -/
def intr (s : Sig) : IView :=
  { type := s.type, strike := s.strike, expiryISO := s.expiryISO
    lastTradeISO := s.lastTradeISO, notional := s.notional, volume := s.volume
    direction := s.direction }

/-- The `scanCfg` fields read by `identifyCombos`. -/
structure ScanCfg where
  comboTimeWindowMin : Option ℚ := none
  comboNotionalRatioTol : Option ℚ := none
  comboStrikePctTol : Option ℚ := none
deriving DecidableEq, Repr

/-- Resolved configuration (after the `Number.isFinite(...) ? ... : default`
defaulting at the top of `identifyCombos`). -/
structure RCfg where
  base : ℚ
  tol : ℚ
  pctTol : ℚ
deriving DecidableEq, Repr

/-- Defaulting: base window 10 minutes, notional-ratio tolerance 1.5, strike
tolerance 5%. -/
def resolveCfg (c : Option ScanCfg) : RCfg :=
  { base := ((c.map (·.comboTimeWindowMin)).getD none).getD 10
    tol := ((c.map (·.comboNotionalRatioTol)).getD none).getD (3/2)
    pctTol := ((c.map (·.comboStrikePctTol)).getD none).getD (5/100) }

/-- Result of a JavaScript division of two (finite) numbers: finite,
`±Infinity` (division of a nonzero value by zero) or `NaN` (`0/0`). -/
inductive QRatio where
  | fin (q : ℚ)
  | inf
  | ninf
  | nan
deriving DecidableEq, Repr

/-- JavaScript `x / y` on rationals. -/
def jsDiv (x y : ℚ) : QRatio :=
  if y ≠ 0 then QRatio.fin (x / y)
  else if x > 0 then QRatio.inf
  else if x < 0 then QRatio.ninf
  else QRatio.nan

/-- JavaScript `r > t` for a division result (`NaN > t` is false). -/
def QRatio.gtB : QRatio → ℚ → Bool
  | QRatio.fin q, t => decide (q > t)
  | QRatio.inf, _ => true
  | QRatio.ninf, _ => false
  | QRatio.nan, _ => false

/-- `max/min` notional (or volume) ratio as the code writes it:
`a > b ? a / b : b / a`. -/
def ratioOf (a b : ℚ) : QRatio :=
  if a > b then jsDiv a b else jsDiv b a

/-- ToInt32: wrap an integer into `[-2^31, 2^31)`. -/
def toInt32 (n : ℤ) : ℤ :=
  let m := n % 4294967296
  if m < 2147483648 then m else m - 4294967296

/-- ToUint32: wrap an integer into `[0, 2^32)`. -/
def toUInt32 (n : ℤ) : ℕ :=
  (n % 4294967296).toNat

/-- One step of `simpleHash`: `h = ((h << 5) + h) ^ charCode` with JavaScript
32-bit semantics (`<<` and `^` coerce through ToInt32). -/
def hashStep (h : ℤ) (c : ℕ) : ℤ :=
  toInt32 (Int.ofNat (Nat.xor (toUInt32 (toInt32 (h * 32) + h)) c))

/-- `simpleHash` (`util.ts`): DJB2-style fold, then `(h >>> 0).toString(16)`. -/
def simpleHash (input : String) : String :=
  String.mk (Nat.toDigits 16 (toUInt32 (input.toList.foldl (fun h ch => hashStep h ch.toNat) 5381)))

/-- Strict lexicographic comparison of char lists (JavaScript string
comparison / `localeCompare` on the ASCII date strings involved). -/
def listLt : List Char → List Char → Bool
  | [], [] => false
  | [], _ :: _ => true
  | _ :: _, [] => false
  | a :: as, b :: bs => if a < b then true else if b < a then false else listLt as bs

/-- `strLeB a b`: the comparator allows `a` to stay before `b`
(`a.localeCompare(b) <= 0`). -/
def strLeB (a b : String) : Bool :=
  ! listLt b.toList a.toList

/-- The tiered time windows `[base, base*3, base*6]` matching: index of the
first tier at least the time difference. -/
def findTier : List ℚ → ℕ → ℚ → Option ℕ
  | [], _, _ => none
  | t :: ts, i, d => if d ≤ t then some i else findTier ts (i + 1) d

/-- The phase of the pair loop a candidate pair belongs to. -/
inductive Phase where
  | straddle
  | vertical
  | calendar
deriving DecidableEq, Repr

/-- The combo fields written to both legs on a successful match. -/
structure Assign where
  comboId : String
  comboType : String
  tier : Option ℕ
deriving DecidableEq, Repr

/-- Write the combo fields of one leg (`comboMatchTier` only in the straddle
phase). -/
def applyAssign (s : Sig) (a : Assign) : Sig :=
  { s with
    comboId := a.comboId
    comboType := a.comboType
    isComboHedge := true
    comboMatchTier := match a.tier with | some t => some t | none => s.comboMatchTier }

/-- JavaScript string of an option type. -/
def typeStr : OptionType → String
  | OptionType.call => "call"
  | OptionType.put => "put"

/-- Time difference in minutes between the two legs' last trades
(`getTimeDiffMin`). -/
def timeDiffMin (dp : String → ℚ) (a b : Sig) : ℚ :=
  |dp a.lastTradeISO - dp b.lastTradeISO| / 60000

/-- Straddle/strangle/synthetic decision (`_identifyStraddlesAndStrangles`
loop body after the duplicate-assignment guard). -/
def straddleDecide (cfg : RCfg) (dp : String → ℚ) (call put : Sig) : Option Assign :=
  let timeDiff := timeDiffMin dp call put
  match findTier [cfg.base, cfg.base * 3, cfg.base * 6] 0 timeDiff with
  | none => none
  | some tier =>
    let strikeDiff := |call.strike - put.strike|
    let isSameStrike := strikeDiff = 0
    let isStrangle := strikeDiff > 0 ∧ strikeDiff ≤ call.strike * cfg.pctTol
    let name : Option String :=
      if isSameStrike ∧ call.direction = Direction.buy ∧ put.direction = Direction.sell then
        some "synthetic-long"
      else if isSameStrike ∧ call.direction = Direction.sell ∧ put.direction = Direction.buy then
        some "synthetic-short"
      else if isSameStrike ∧ call.direction = Direction.buy ∧ put.direction = Direction.buy then
        some "long-straddle"
      else if isSameStrike ∧ call.direction = Direction.sell ∧ put.direction = Direction.sell then
        some "short-straddle"
      else if isStrangle ∧ call.direction = Direction.buy ∧ put.direction = Direction.buy then
        some "long-strangle"
      else if isStrangle ∧ call.direction = Direction.sell ∧ put.direction = Direction.sell then
        some "short-strangle"
      else none
    match name with
    | none => none
    | some nm =>
      if (ratioOf call.notional put.notional).gtB cfg.tol then none
      else
        let comboId := simpleHash (call.expiryISO ++ "_" ++ ValueA.jsNumToString call.strike
          ++ "_" ++ ValueA.jsNumToString put.strike ++ "_" ++ call.lastTradeISO)
        some { comboId := comboId, comboType := nm ++ "-" ++ comboId.take 4, tier := some tier }

/-- Vertical-spread decision (`_identifyVerticalSpreads` loop body after the
guard); `leg1` precedes `leg2` in the strike-sorted group, whose common type
is `leg1.type`. -/
def verticalDecide (cfg : RCfg) (dp : String → ℚ) (leg1 leg2 : Sig) : Option Assign :=
  if timeDiffMin dp leg1 leg2 > cfg.base then none
  else if (ratioOf leg1.volume leg2.volume).gtB cfg.tol then none
  else
    let isBull := leg1.direction = Direction.buy ∧ leg2.direction = Direction.sell
    let isBear := leg1.direction = Direction.sell ∧ leg2.direction = Direction.buy
    if isBull ∨ isBear then
      let comboId := simpleHash (leg1.expiryISO ++ "_vertical_" ++ typeStr leg1.type ++ "_"
        ++ ValueA.jsNumToString leg1.strike ++ "_" ++ ValueA.jsNumToString leg2.strike
        ++ "_" ++ leg1.lastTradeISO)
      let baseType := match leg1.type with
        | OptionType.call => "CallVertical"
        | OptionType.put => "PutVertical"
      let nm := (if isBull then "bull" else "bear") ++ baseType
      some { comboId := comboId, comboType := nm ++ "-" ++ comboId.take 4, tier := none }
    else none

/-- Calendar-spread decision (`_identifyCalendarSpreads` loop body after the
guard); `near` precedes `far` in the expiry-sorted group of common type and
strike. -/
def calendarDecide (cfg : RCfg) (dp : String → ℚ) (near far : Sig) : Option Assign :=
  if timeDiffMin dp near far > cfg.base then none
  else if (ratioOf near.notional far.notional).gtB cfg.tol then none
  else
    let isLongCalendar := near.direction = Direction.sell ∧ far.direction = Direction.buy
    let isShortCalendar := near.direction = Direction.buy ∧ far.direction = Direction.sell
    if isLongCalendar ∨ isShortCalendar then
      let comboId := simpleHash ("calendar_" ++ typeStr near.type ++ "_"
        ++ ValueA.jsNumToString near.strike ++ "_" ++ near.expiryISO ++ "_" ++ far.expiryISO
        ++ "_" ++ near.lastTradeISO)
      let baseType := match near.type with
        | OptionType.call => "CalendarCall"
        | OptionType.put => "CalendarPut"
      let nm := (if isLongCalendar then "long" else "short") ++ baseType
      some { comboId := comboId, comboType := nm ++ "-" ++ comboId.take 4, tier := none }
    else none

/-- Phase dispatch of the pair decision. -/
def phaseDecide (cfg : RCfg) (dp : String → ℚ) : Phase → Sig → Sig → Option Assign
  | Phase.straddle => straddleDecide cfg dp
  | Phase.vertical => verticalDecide cfg dp
  | Phase.calendar => calendarDecide cfg dp

/-- Ordered pairs `(i, j)` with `i` strictly before `j`, in the nested-loop
order `for i ... for j > i`. -/
def pairsUpper : List α → List (α × α)
  | [] => []
  | x :: xs => xs.map (fun y => (x, y)) ++ pairsUpper xs

/-- Straddle-phase candidate pairs of one expiry group: calls sorted by
strike then by ascending trade time, crossed with puts sorted by strike then
by descending trade time. -/
def straddlePairsFor (ivs : List (ℕ × IView)) (e : String) : List (Phase × ℕ × ℕ) :=
  let grp := ivs.filter (fun p => p.2.expiryISO = e)
  let calls := JsList.jsSort (fun a b => decide (a.2.strike ≤ b.2.strike))
    (grp.filter (fun p => p.2.type = OptionType.call))
  let puts := JsList.jsSort (fun a b => decide (a.2.strike ≤ b.2.strike))
    (grp.filter (fun p => p.2.type = OptionType.put))
  let sortedCalls := JsList.jsSort (fun a b => strLeB a.2.lastTradeISO b.2.lastTradeISO) calls
  let sortedPuts := JsList.jsSort (fun a b => strLeB b.2.lastTradeISO a.2.lastTradeISO) puts
  sortedCalls.flatMap (fun c => sortedPuts.map (fun p => (Phase.straddle, c.1, p.1)))

/-- Vertical-phase candidate pairs of one expiry group and option type. -/
def verticalPairsFor (ivs : List (ℕ × IView)) (e : String) (ty : OptionType) :
    List (Phase × ℕ × ℕ) :=
  let opts := JsList.jsSort (fun a b => decide (a.2.strike ≤ b.2.strike))
    ((ivs.filter (fun p => p.2.expiryISO = e)).filter (fun p => p.2.type = ty))
  (pairsUpper opts).map (fun pq => (Phase.vertical, pq.1.1, pq.2.1))

/-- Calendar-phase candidate pairs of one `type|strike` group, sorted by
expiry. -/
def calendarPairsFor (ivs : List (ℕ × IView)) (key : OptionType × ℚ) :
    List (Phase × ℕ × ℕ) :=
  let grp := ivs.filter (fun p => p.2.type = key.1 ∧ p.2.strike = key.2)
  let sorted := JsList.jsSort (fun a b => strLeB a.2.expiryISO b.2.expiryISO) grp
  (pairsUpper sorted).map (fun pq => (Phase.calendar, pq.1.1, pq.2.1))

/-- The complete candidate-pair sequence of `identifyCombos`, computed from
the immutable fields: per expiry (keys in insertion order) the straddle pairs
then the call and put vertical pairs, then per `type|strike` key the
calendar pairs. -/
def pairSeq (views : List IView) : List (Phase × ℕ × ℕ) :=
  let ivs := List.enumFrom 0 views
  (JsList.keysInOrder (views.map (·.expiryISO))).flatMap (fun e =>
    straddlePairsFor ivs e ++ verticalPairsFor ivs e OptionType.call
      ++ verticalPairsFor ivs e OptionType.put)
  ++ (JsList.keysInOrder (views.map (fun v => (v.type, v.strike)))).flatMap
    (fun k => calendarPairsFor ivs k)

/-- Process one candidate pair: skip if either leg is out of range or already
assigned, otherwise apply the phase decision and write both legs. -/
def applyPair (cfg : RCfg) (dp : String → ℚ) (st : List Sig) (p : Phase × ℕ × ℕ) : List Sig :=
  match st[p.2.1]?, st[p.2.2]? with
  | some a, some b =>
    if a.comboId = "" ∧ b.comboId = "" then
      match phaseDecide cfg dp p.1 a b with
      | some asg => (st.set p.2.1 (applyAssign a asg)).set p.2.2 (applyAssign b asg)
      | none => st
    else st
  | _, _ => st

/-- `identifyCombos(signals, scanCfg)`: fold the pair steps over the signal
list, in the candidate order computed from the immutable fields. -/
def identifyCombos (scanCfg : Option ScanCfg) (dp : String → ℚ) (signals : List Sig) :
    List Sig :=
  (pairSeq (signals.map intr)).foldl (applyPair (resolveCfg scanCfg) dp) signals

end Combo

namespace Combo

/-- Setting an index to the value it already holds is the identity. -/
theorem set_getElem_self {α : Type*} {l : List α} {i : ℕ} {a : α} (h : l[i]? = some a) :
    l.set i a = l := by
  apply List.ext_getElem?
  intro n
  by_cases hn : n = i
  · subst hn
    have hlt : n < l.length := (List.getElem?_eq_some.mp h).1
    simp [List.getElem?_set, hlt, h]
  · rw [List.getElem?_set_ne (fun e => hn e.symm)]

theorem toDigitsCore_length_le (b : ℕ) :
    ∀ (fuel n : ℕ) (ds : List Char), ds.length ≤ (Nat.toDigitsCore b fuel n ds).length
  | 0, _, _ => le_rfl
  | fuel + 1, n, ds => by
      unfold Nat.toDigitsCore
      dsimp only
      split
      · exact Nat.le_succ _
      · exact le_trans (Nat.le_succ _)
          (toDigitsCore_length_le b fuel (n / b) ((n % b).digitChar :: ds))

/-- `simpleHash` never returns the empty string. -/
theorem simpleHash_ne_empty (s : String) : simpleHash s ≠ "" := by
  unfold simpleHash
  intro h
  have hd : (Nat.toDigits 16
      (toUInt32 ((s.toList.foldl (fun h ch => hashStep h ch.toNat) 5381)))) = [] := by
    have := congrArg String.data h
    simpa using this
  have h1 : 1 ≤ (Nat.toDigits 16
      (toUInt32 ((s.toList.foldl (fun h ch => hashStep h ch.toNat) 5381)))).length := by
    unfold Nat.toDigits Nat.toDigitsCore
    dsimp only
    split
    · simp
    · exact le_trans (by simp) (toDigitsCore_length_le 16 _ _ _)
  rw [hd] at h1
  cases h1

/-- A pair fires when both legs exist, neither is assigned, and the phase
decision matches. -/
def fires (cfg : RCfg) (dp : String → ℚ) (st : List Sig) (p : Phase × ℕ × ℕ) : Prop :=
  ∃ a b, st[p.2.1]? = some a ∧ st[p.2.2]? = some b ∧ a.comboId = "" ∧ b.comboId = "" ∧
    (phaseDecide cfg dp p.1 a b).isSome = true

theorem applyPair_of_not_fires {cfg : RCfg} {dp : String → ℚ} {st : List Sig}
    {p : Phase × ℕ × ℕ} (h : ¬ fires cfg dp st p) : applyPair cfg dp st p = st := by
  unfold applyPair
  cases h1 : st[p.2.1]? with
  | none => rfl
  | some a =>
    cases h2 : st[p.2.2]? with
    | none => rfl
    | some b =>
      simp only
      split_ifs with hg
      · cases h3 : phaseDecide cfg dp p.1 a b with
        | none => rfl
        | some asg =>
            exact absurd ⟨a, b, h1, h2, hg.1, hg.2, by rw [h3]; rfl⟩ h
      · rfl

/-- Every assignment produced by a phase decision carries a nonempty
`comboId` (a `simpleHash` output). -/
theorem straddleDecide_comboId_ne {cfg : RCfg} {dp : String → ℚ} {a b : Sig}
    {asg : Assign} (h : straddleDecide cfg dp a b = some asg) : asg.comboId ≠ "" := by
  unfold straddleDecide at h
  dsimp only at h
  split at h
  · exact Option.noConfusion h
  · split at h
    · exact Option.noConfusion h
    · split at h
      · exact Option.noConfusion h
      · rw [Option.some_inj] at h
        rw [← h]
        exact simpleHash_ne_empty _

theorem verticalDecide_comboId_ne {cfg : RCfg} {dp : String → ℚ} {a b : Sig}
    {asg : Assign} (h : verticalDecide cfg dp a b = some asg) : asg.comboId ≠ "" := by
  unfold verticalDecide at h
  dsimp only at h
  split_ifs at h
  all_goals first
    | exact Option.noConfusion h
    | (rw [Option.some_inj] at h; rw [← h]; exact simpleHash_ne_empty _)

theorem calendarDecide_comboId_ne {cfg : RCfg} {dp : String → ℚ} {a b : Sig}
    {asg : Assign} (h : calendarDecide cfg dp a b = some asg) : asg.comboId ≠ "" := by
  unfold calendarDecide at h
  dsimp only at h
  split_ifs at h
  all_goals first
    | exact Option.noConfusion h
    | (rw [Option.some_inj] at h; rw [← h]; exact simpleHash_ne_empty _)

/-- Every assignment produced by a phase decision carries a nonempty
`comboId` (a `simpleHash` output). -/
theorem phaseDecide_comboId_ne {cfg : RCfg} {dp : String → ℚ} {ph : Phase} {a b : Sig}
    {asg : Assign} (h : phaseDecide cfg dp ph a b = some asg) : asg.comboId ≠ "" := by
  cases ph with
  | straddle => exact straddleDecide_comboId_ne h
  | vertical => exact verticalDecide_comboId_ne h
  | calendar => exact calendarDecide_comboId_ne h

end Combo

namespace Combo

/-- A pair step leaves an entry unchanged or marks it assigned. -/
theorem applyPair_getElem (cfg : RCfg) (dp : String → ℚ) (st : List Sig)
    (p : Phase × ℕ × ℕ) (i : ℕ) :
    (applyPair cfg dp st p)[i]? = st[i]? ∨
    ∃ x, (applyPair cfg dp st p)[i]? = some x ∧ x.comboId ≠ "" := by
  unfold applyPair
  cases h1 : st[p.2.1]? with
  | none => exact Or.inl rfl
  | some a =>
    cases h2 : st[p.2.2]? with
    | none => exact Or.inl rfl
    | some b =>
      simp only
      split_ifs with hg
      · cases h3 : phaseDecide cfg dp p.1 a b with
        | none => exact Or.inl rfl
        | some asg =>
            have hne := phaseDecide_comboId_ne h3
            by_cases hij : i = p.2.2
            · subst hij
              have hlt := (List.getElem?_eq_some.mp h2).1
              refine Or.inr ⟨applyAssign b asg, ?_, hne⟩
              simp [List.getElem?_set, hlt]
            · rw [List.getElem?_set_ne (fun e => hij e.symm)]
              by_cases hii : i = p.2.1
              · subst hii
                have hlt := (List.getElem?_eq_some.mp h1).1
                refine Or.inr ⟨applyAssign a asg, ?_, hne⟩
                simp [List.getElem?_set, hlt]
              · rw [List.getElem?_set_ne (fun e => hii e.symm)]
                exact Or.inl rfl
      · exact Or.inl rfl

/-- A pair that cannot fire still cannot fire after any other pair step. -/
theorem fires_mono {cfg : RCfg} {dp : String → ℚ} {st : List Sig} {p q : Phase × ℕ × ℕ}
    (h : ¬ fires cfg dp st p) : ¬ fires cfg dp (applyPair cfg dp st q) p := by
  rintro ⟨a, b, h1, h2, ha, hb, hd⟩
  rcases applyPair_getElem cfg dp st q p.2.1 with hA | ⟨x, hx, hxne⟩
  · rcases applyPair_getElem cfg dp st q p.2.2 with hB | ⟨y, hy, hyne⟩
    · rw [hA] at h1
      rw [hB] at h2
      exact h ⟨a, b, h1, h2, ha, hb, hd⟩
    · rw [hy] at h2
      injection h2 with e
      exact hyne (e ▸ hb)
  · rw [hx] at h1
    injection h1 with e
    exact hxne (e ▸ ha)

/-- `fires_mono` along a fold. -/
theorem not_fires_foldl {cfg : RCfg} {dp : String → ℚ} {p : Phase × ℕ × ℕ} :
    ∀ (qs : List (Phase × ℕ × ℕ)) (st : List Sig), ¬ fires cfg dp st p →
      ¬ fires cfg dp (qs.foldl (applyPair cfg dp) st) p
  | [], _, h => h
  | q :: qs, st, h => by
      rw [List.foldl_cons]
      exact not_fires_foldl qs _ (fires_mono h)

/-- Once a pair has been processed it can never fire again. -/
theorem not_fires_self (cfg : RCfg) (dp : String → ℚ) (st : List Sig) (p : Phase × ℕ × ℕ) :
    ¬ fires cfg dp (applyPair cfg dp st p) p := by
  by_cases hf : fires cfg dp st p
  · obtain ⟨a, b, h1, h2, ha, hb, hd⟩ := hf
    obtain ⟨asg, hasg⟩ := Option.isSome_iff_exists.mp hd
    have heq : applyPair cfg dp st p =
        (st.set p.2.1 (applyAssign a asg)).set p.2.2 (applyAssign b asg) := by
      unfold applyPair
      simp only [h1, h2, ha, hb, and_self, if_true, hasg]
    rintro ⟨a', b', h1', h2', ha', hb', hd'⟩
    have hlt : p.2.2 < st.length := (List.getElem?_eq_some.mp h2).1
    have hb2 : (applyPair cfg dp st p)[p.2.2]? = some (applyAssign b asg) := by
      rw [heq]
      simp [List.getElem?_set, hlt]
    rw [hb2] at h2'
    injection h2' with e
    rw [← e] at hb'
    exact phaseDecide_comboId_ne hasg hb'
  · rw [applyPair_of_not_fires hf]
    exact hf

/-- After the full fold over a pair list, no pair of that list can fire. -/
theorem fold_kills (cfg : RCfg) (dp : String → ℚ) :
    ∀ (ps : List (Phase × ℕ × ℕ)) (st : List Sig), ∀ p ∈ ps,
      ¬ fires cfg dp (ps.foldl (applyPair cfg dp) st) p
  | [], _, p, hp => absurd hp (List.not_mem_nil p)
  | q :: qs, st, p, hp => by
      rw [List.foldl_cons]
      rcases List.mem_cons.mp hp with rfl | hp'
      · exact not_fires_foldl qs _ (not_fires_self cfg dp st p)
      · exact fold_kills cfg dp qs _ p hp'

/-- A fold over pairs none of which fires is the identity. -/
theorem foldl_of_not_fires {cfg : RCfg} {dp : String → ℚ} :
    ∀ (ps : List (Phase × ℕ × ℕ)) (st : List Sig), (∀ p ∈ ps, ¬ fires cfg dp st p) →
      ps.foldl (applyPair cfg dp) st = st
  | [], _, _ => rfl
  | q :: qs, st, h => by
      rw [List.foldl_cons, applyPair_of_not_fires (h q (List.mem_cons_self q qs))]
      exact foldl_of_not_fires qs st (fun p hp => h p (List.mem_cons_of_mem q hp))

/-- Assignments do not change the immutable fields. -/
theorem intr_applyAssign (s : Sig) (a : Assign) : intr (applyAssign s a) = intr s := rfl

/-- A pair step preserves the immutable projections. -/
theorem map_intr_applyPair (cfg : RCfg) (dp : String → ℚ) (st : List Sig)
    (p : Phase × ℕ × ℕ) : (applyPair cfg dp st p).map intr = st.map intr := by
  unfold applyPair
  cases h1 : st[p.2.1]? with
  | none => rfl
  | some a =>
    cases h2 : st[p.2.2]? with
    | none => rfl
    | some b =>
      simp only
      split_ifs with hg
      · cases h3 : phaseDecide cfg dp p.1 a b with
        | none => rfl
        | some asg =>
            rw [List.map_set, List.map_set, intr_applyAssign, intr_applyAssign]
            have e1 : (st.map intr).set p.2.1 (intr a) = st.map intr :=
              set_getElem_self (by rw [List.getElem?_map, h1]; rfl)
            rw [e1]
            exact set_getElem_self (by rw [List.getElem?_map, h2]; rfl)
      · rfl

end Combo

namespace Combo

/-- The immutable projections are preserved along the whole fold. -/
theorem map_intr_foldl (cfg : RCfg) (dp : String → ℚ) :
    ∀ (ps : List (Phase × ℕ × ℕ)) (st : List Sig),
      (ps.foldl (applyPair cfg dp) st).map intr = st.map intr
  | [], _ => rfl
  | q :: qs, st => by
      rw [List.foldl_cons, map_intr_foldl cfg dp qs _, map_intr_applyPair]

end Combo

/-- C3: `identifyCombos` is idempotent — a second run on the output of a
first run changes nothing: every `comboId`, `comboType` and `isComboHedge`
set by the first run is preserved and no unassigned pair becomes assigned,
since every candidate pair that could fire was consumed (or ruled out on its
immutable fields, which the first run never alters). -/
theorem C3_identifyCombos_idempotent (scanCfg : Option Combo.ScanCfg)
    (dp : String → ℚ) (signals : List Combo.Sig) :
    Combo.identifyCombos scanCfg dp (Combo.identifyCombos scanCfg dp signals) =
      Combo.identifyCombos scanCfg dp signals := by
  unfold Combo.identifyCombos
  rw [Combo.map_intr_foldl]
  exact Combo.foldl_of_not_fires _ _
    (Combo.fold_kills (Combo.resolveCfg scanCfg) dp _ signals)

namespace Combo

theorem listLt_asymm : ∀ {a b : List Char}, listLt a b = true → listLt b a = false
  | [], [], h => by cases h
  | [], _ :: _, _ => rfl
  | _ :: _, [], h => by cases h
  | a :: as, b :: bs, h => by
      unfold listLt at h ⊢
      by_cases hab : a < b
      · rw [if_neg (lt_asymm hab), if_pos hab]
      · by_cases hba : b < a
        · rw [if_neg hab, if_pos hba] at h
          cases h
        · rw [if_neg hab, if_neg hba] at h
          rw [if_neg hba, if_neg hab]
          exact listLt_asymm h

theorem listLt_trichotomy : ∀ a b : List Char, listLt a b = true ∨ listLt b a = true ∨ a = b
  | [], [] => Or.inr (Or.inr rfl)
  | [], _ :: _ => Or.inl rfl
  | _ :: _, [] => Or.inr (Or.inl rfl)
  | a :: as, b :: bs => by
      rcases lt_trichotomy a b with h | h | h
      · exact Or.inl (by unfold listLt; rw [if_pos h])
      · subst h
        rcases listLt_trichotomy as bs with h2 | h2 | h2
        · refine Or.inl ?_
          unfold listLt
          rw [if_neg (lt_irrefl a), if_neg (lt_irrefl a)]
          exact h2
        · refine Or.inr (Or.inl ?_)
          unfold listLt
          rw [if_neg (lt_irrefl a), if_neg (lt_irrefl a)]
          exact h2
        · exact Or.inr (Or.inr (by rw [h2]))
      · exact Or.inr (Or.inl (by unfold listLt; rw [if_pos h]))

theorem listLt_trans : ∀ {a b c : List Char}, listLt a b = true → listLt b c = true →
    listLt a c = true
  | [], _, _ :: _, _, _ => rfl
  | [], [], _, h1, _ => by cases h1
  | [], _ :: _, [], _, h2 => by cases h2
  | _ :: _, [], _, h1, _ => by cases h1
  | _ :: _, _ :: _, [], _, h2 => by cases h2
  | a :: as, b :: bs, c :: cs, h1, h2 => by
      unfold listLt at h1 h2 ⊢
      by_cases hab : a < b
      · by_cases hbc : b < c
        · rw [if_pos (lt_trans hab hbc)]
        · by_cases hcb : c < b
          · rw [if_neg hbc, if_pos hcb] at h2
            cases h2
          · have hbc' : b = c := le_antisymm (not_lt.mp hcb) (not_lt.mp hbc)
            subst hbc'
            rw [if_pos hab]
      · by_cases hba : b < a
        · rw [if_neg hab, if_pos hba] at h1
          cases h1
        · have hab' : a = b := le_antisymm (not_lt.mp hba) (not_lt.mp hab)
          subst hab'
          rw [if_neg hab, if_neg hba] at h1
          by_cases hac : a < c
          · rw [if_pos hac]
          · by_cases hca : c < a
            · rw [if_neg hac, if_pos hca] at h2
              cases h2
            · rw [if_neg hac, if_neg hca] at h2 ⊢
              exact listLt_trans h1 h2

theorem strLeB_total (a b : String) : strLeB a b = true ∨ strLeB b a = true := by
  unfold strLeB
  by_cases h : listLt b.toList a.toList = true
  · right
    rw [listLt_asymm h]
    rfl
  · left
    rw [Bool.not_eq_true] at h
    rw [h]
    rfl

theorem strLeB_trans {a b c : String} (h1 : strLeB a b = true) (h2 : strLeB b c = true) :
    strLeB a c = true := by
  unfold strLeB at h1 h2 ⊢
  rw [Bool.not_eq_true'] at h1 h2 ⊢
  by_contra hca
  rw [Bool.not_eq_false] at hca
  rcases listLt_trichotomy b.toList a.toList with h | h | h
  · rw [h] at h1
    cases h1
  · have := listLt_trans hca h
    rw [this] at h2
    cases h2
  · rw [h] at h2
    rw [hca] at h2
    cases h2

theorem mem_of_pairsUpper : ∀ {l : List α} {x y : α}, (x, y) ∈ pairsUpper l →
    x ∈ l ∧ y ∈ l
  | [], _, _, h => absurd h (List.not_mem_nil _)
  | z :: zs, x, y, h => by
      unfold pairsUpper at h
      rcases List.mem_append.mp h with h | h
      · obtain ⟨w, hw, he⟩ := List.mem_map.mp h
        injection he with e1 e2
        subst e1
        subst e2
        exact ⟨List.mem_cons_self _ _, List.mem_cons_of_mem _ hw⟩
      · have := mem_of_pairsUpper h
        exact ⟨List.mem_cons_of_mem _ this.1, List.mem_cons_of_mem _ this.2⟩

theorem pairsUpper_rel {R : α → α → Prop} : ∀ {l : List α}, l.Pairwise R →
    ∀ {x y : α}, (x, y) ∈ pairsUpper l → R x y
  | [], _, _, _, h => absurd h (List.not_mem_nil _)
  | z :: zs, hp, x, y, h => by
      rw [List.pairwise_cons] at hp
      unfold pairsUpper at h
      rcases List.mem_append.mp h with h | h
      · obtain ⟨w, hw, he⟩ := List.mem_map.mp h
        injection he with e1 e2
        subst e1
        subst e2
        exact hp.1 w hw
      · exact pairsUpper_rel hp.2 h

theorem getElem?_of_mem_enumFrom : ∀ (n : ℕ) (l : List α) (p : ℕ × α),
    p ∈ List.enumFrom n l → n ≤ p.1 ∧ l[p.1 - n]? = some p.2
  | _, [], p, h => absurd h (List.not_mem_nil p)
  | n, x :: xs, p, h => by
      rcases List.mem_cons.mp h with rfl | h
      · exact ⟨le_rfl, by simp⟩
      · obtain ⟨h1, h2⟩ := getElem?_of_mem_enumFrom (n + 1) xs p h
        refine ⟨le_trans (Nat.le_succ n) h1, ?_⟩
        have he : p.1 - n = (p.1 - (n + 1)) + 1 := by omega
        rw [he]
        simpa using h2

end Combo

namespace Combo

/-- A calendar-phase candidate pair comes from a `type|strike` group sorted
by expiry: same type, same strike, expiries in nondecreasing string order. -/
theorem calendar_pair_shape {views : List IView} {i j : ℕ}
    (h : (Phase.calendar, i, j) ∈ pairSeq views) :
    ∃ vi vj, views[i]? = some vi ∧ views[j]? = some vj ∧ vi.type = vj.type ∧
      vi.strike = vj.strike ∧ strLeB vi.expiryISO vj.expiryISO = true := by
  unfold pairSeq at h
  rcases List.mem_append.mp h with h | h
  · exfalso
    obtain ⟨e, _, hmem⟩ := List.mem_flatMap.mp h
    rcases List.mem_append.mp hmem with h' | h'
    · rcases List.mem_append.mp h' with h'' | h''
      · unfold straddlePairsFor at h''
        dsimp only at h''
        obtain ⟨c, _, h3⟩ := List.mem_flatMap.mp h''
        obtain ⟨q, _, he2⟩ := List.mem_map.mp h3
        exact Phase.noConfusion (congrArg Prod.fst he2)
      · unfold verticalPairsFor at h''
        obtain ⟨pq, _, he2⟩ := List.mem_map.mp h''
        exact Phase.noConfusion (congrArg Prod.fst he2)
    · unfold verticalPairsFor at h'
      obtain ⟨pq, _, he2⟩ := List.mem_map.mp h'
      exact Phase.noConfusion (congrArg Prod.fst he2)
  · obtain ⟨k, _, hmem⟩ := List.mem_flatMap.mp h
    unfold calendarPairsFor at hmem
    obtain ⟨pq, hpq, he2⟩ := List.mem_map.mp hmem
    have hi : pq.1.1 = i := congrArg (fun t => t.2.1) he2
    have hj : pq.2.1 = j := congrArg (fun t => t.2.2) he2
    have hsorted := @JsList.jsSort_pairwise _
      (fun a b : ℕ × IView => strLeB a.2.expiryISO b.2.expiryISO)
      (fun a b => strLeB_total a.2.expiryISO b.2.expiryISO)
      (fun a b c hab hbc => strLeB_trans hab hbc)
      ((List.enumFrom 0 views).filter (fun p => p.2.type = k.1 ∧ p.2.strike = k.2))
    have hpq' : (pq.1, pq.2) ∈ pairsUpper (JsList.jsSort
        (fun a b : ℕ × IView => strLeB a.2.expiryISO b.2.expiryISO)
        ((List.enumFrom 0 views).filter (fun p => p.2.type = k.1 ∧ p.2.strike = k.2))) := hpq
    have hrel := pairsUpper_rel hsorted hpq'
    have hmem2 := mem_of_pairsUpper hpq'
    have hmemg1 := (JsList.jsSort_perm _ _).mem_iff.mp hmem2.1
    have hmemg2 := (JsList.jsSort_perm _ _).mem_iff.mp hmem2.2
    have hf1 := List.mem_filter.mp hmemg1
    have hf2 := List.mem_filter.mp hmemg2
    have hc1 := of_decide_eq_true hf1.2
    have hc2 := of_decide_eq_true hf2.2
    have hg1 := getElem?_of_mem_enumFrom 0 views pq.1 hf1.1
    have hg2 := getElem?_of_mem_enumFrom 0 views pq.2 hf2.1
    refine ⟨pq.1.2, pq.2.2, ?_, ?_, ?_, ?_, hrel⟩
    · rw [← hi]
      simpa using hg1.2
    · rw [← hj]
      simpa using hg2.2
    · rw [hc1.1, hc2.1]
    · rw [hc1.2, hc2.2]

/-- Base type label of a calendar spread. -/
def calendarBaseType : OptionType → String
  | OptionType.call => "CalendarCall"
  | OptionType.put => "CalendarPut"

/-- A successful calendar decision requires opposite directions (sell-near /
buy-far is labelled long, buy-near / sell-far short), trade times within the
base window only (no tiering) and a notional ratio within tolerance. -/
theorem calendarDecide_shape {cfg : RCfg} {dp : String → ℚ} {near far : Sig} {asg : Assign}
    (h : calendarDecide cfg dp near far = some asg) :
    timeDiffMin dp near far ≤ cfg.base ∧
    (ratioOf near.notional far.notional).gtB cfg.tol = false ∧
    ((near.direction = Direction.sell ∧ far.direction = Direction.buy ∧
      asg.comboType = "long" ++ calendarBaseType near.type ++ "-" ++ asg.comboId.take 4) ∨
     (near.direction = Direction.buy ∧ far.direction = Direction.sell ∧
      asg.comboType = "short" ++ calendarBaseType near.type ++ "-" ++ asg.comboId.take 4)) := by
  unfold calendarDecide at h
  dsimp only at h
  split_ifs at h with h1 h2 h3 h4
  · refine ⟨not_lt.mp h1, Bool.eq_false_iff.mpr h2, Or.inl ⟨h4.1, h4.2, ?_⟩⟩
    rw [Option.some_inj] at h
    rw [← h]
    cases near.type <;> simp only [calendarBaseType]
  · have h5 := h3.resolve_left h4
    refine ⟨not_lt.mp h1, Bool.eq_false_iff.mpr h2, Or.inr ⟨h5.1, h5.2, ?_⟩⟩
    rw [Option.some_inj] at h
    rw [← h]
    cases near.type <;> simp only [calendarBaseType]

end Combo

namespace Combo

/-- Constant timestamp-parse function for the C7 example (both legs trade at
the same instant). -/
def c7dp : String → ℚ := fun _ => 0

/-- C7 example, near leg: a sold call, strike 100, expiry 2025-01-17. -/
def c7s1 : Sig :=
  { type := OptionType.call, strike := 100, expiryISO := "2025-01-17", lastTradeISO := "T"
    notional := 1000, volume := 10, direction := Direction.sell
    comboId := "", comboType := "", isComboHedge := false, comboMatchTier := none }

/-- C7 example, far leg: the same contract bought, volume 1 — the SAME expiry
as the near leg. -/
def c7s2 : Sig := { c7s1 with volume := 1, direction := Direction.buy }

/-- The comboId the calendar phase computes for the example pair. -/
def c7hash : String := simpleHash ("calendar_" ++ typeStr OptionType.call ++ "_"
  ++ ValueA.jsNumToString (100 : ℚ) ++ "_" ++ "2025-01-17" ++ "_" ++ "2025-01-17" ++ "_" ++ "T")

/-- The assignment the calendar phase writes to both example legs. -/
def c7asg : Assign :=
  { comboId := c7hash, comboType := "longCalendarCall" ++ "-" ++ c7hash.take 4, tier := none }

theorem c7_pairSeq : pairSeq ([c7s1, c7s2].map intr) =
    [(Phase.vertical, 0, 1), (Phase.calendar, 0, 1)] := by
  norm_num [pairSeq, straddlePairsFor, verticalPairsFor,
    calendarPairsFor, pairsUpper, intr, JsList.keysInOrder,
    JsList.jsSort, JsList.jsInsert, strLeB, listLt, List.enumFrom,
    c7s1, c7s2]

theorem c7_vert : verticalDecide (resolveCfg none) c7dp c7s1 c7s2 = none := by
  rw [verticalDecide]
  rw [if_neg (by norm_num [timeDiffMin, c7dp, resolveCfg])]
  rw [if_pos (by norm_num [ratioOf, jsDiv, QRatio.gtB, c7s1, c7s2, resolveCfg])]

theorem c7_cal : calendarDecide (resolveCfg none) c7dp c7s1 c7s2 = some c7asg := by
  rw [calendarDecide]
  rw [if_neg (by norm_num [timeDiffMin, c7dp, resolveCfg])]
  rw [if_neg (by norm_num [ratioOf, jsDiv, QRatio.gtB, c7s1, c7s2, resolveCfg])]
  rfl

theorem c7_run : identifyCombos none c7dp [c7s1, c7s2] =
    [applyAssign c7s1 c7asg, applyAssign c7s2 c7asg] := by
  unfold identifyCombos
  rw [c7_pairSeq]
  simp only [List.foldl_cons, List.foldl_nil]
  have h1 : applyPair (resolveCfg none) c7dp [c7s1, c7s2] (Phase.vertical, 0, 1) =
      [c7s1, c7s2] := by
    simp only [applyPair, List.getElem?_cons_zero, List.getElem?_cons_succ]
    rw [if_pos ⟨rfl, rfl⟩]
    simp only [phaseDecide, c7_vert]
  rw [h1]
  have h2 : applyPair (resolveCfg none) c7dp [c7s1, c7s2] (Phase.calendar, 0, 1) =
      [applyAssign c7s1 c7asg, applyAssign c7s2 c7asg] := by
    simp only [applyPair, List.getElem?_cons_zero, List.getElem?_cons_succ]
    rw [if_pos ⟨rfl, rfl⟩]
    simp only [phaseDecide, c7_cal]
    rfl
  rw [h2]

end Combo

/-- C7: a calendar-spread combo pairs two legs of the same option type and
the same strike whose expiries are in nondecreasing string order — the code
never requires the expiries to DIFFER — and a successful calendar decision
additionally requires trade times within the base window only (no tiering),
a notional ratio within tolerance, and opposite directions: near sell + far
buy is labelled a long calendar, near buy + far sell a short calendar. -/
theorem C7_calendar_combo_shape (scanCfg : Option Combo.ScanCfg) (dp : String → ℚ)
    (signals : List Combo.Sig) (i j : ℕ)
    (hmem : (Combo.Phase.calendar, i, j) ∈ Combo.pairSeq (signals.map Combo.intr)) :
    (∃ vi vj, (signals.map Combo.intr)[i]? = some vi ∧
      (signals.map Combo.intr)[j]? = some vj ∧ vi.type = vj.type ∧
      vi.strike = vj.strike ∧ Combo.strLeB vi.expiryISO vj.expiryISO = true) ∧
    (∀ near far asg,
      Combo.calendarDecide (Combo.resolveCfg scanCfg) dp near far = some asg →
      Combo.timeDiffMin dp near far ≤ (Combo.resolveCfg scanCfg).base ∧
      (Combo.ratioOf near.notional far.notional).gtB (Combo.resolveCfg scanCfg).tol = false ∧
      ((near.direction = Direction.sell ∧ far.direction = Direction.buy ∧
        asg.comboType = "long" ++ Combo.calendarBaseType near.type ++ "-"
          ++ asg.comboId.take 4) ∨
       (near.direction = Direction.buy ∧ far.direction = Direction.sell ∧
        asg.comboType = "short" ++ Combo.calendarBaseType near.type ++ "-"
          ++ asg.comboId.take 4))) :=
  ⟨Combo.calendar_pair_shape hmem, fun _ _ _ h => Combo.calendarDecide_shape h⟩

/-- C7 witness: on the two-signal example the calendar pair `(0, 1)` is a
candidate and the shape theorem applies to it. -/
theorem C7_calendar_combo_shape_witness :
    ((Combo.Phase.calendar, 0, 1) ∈
      Combo.pairSeq ([Combo.c7s1, Combo.c7s2].map Combo.intr)) ∧
    ((∃ vi vj, ([Combo.c7s1, Combo.c7s2].map Combo.intr)[0]? = some vi ∧
      ([Combo.c7s1, Combo.c7s2].map Combo.intr)[1]? = some vj ∧ vi.type = vj.type ∧
      vi.strike = vj.strike ∧ Combo.strLeB vi.expiryISO vj.expiryISO = true) ∧
    (∀ near far asg,
      Combo.calendarDecide (Combo.resolveCfg none) Combo.c7dp near far = some asg →
      Combo.timeDiffMin Combo.c7dp near far ≤ (Combo.resolveCfg none).base ∧
      (Combo.ratioOf near.notional far.notional).gtB (Combo.resolveCfg none).tol = false ∧
      ((near.direction = Direction.sell ∧ far.direction = Direction.buy ∧
        asg.comboType = "long" ++ Combo.calendarBaseType near.type ++ "-"
          ++ asg.comboId.take 4) ∨
       (near.direction = Direction.buy ∧ far.direction = Direction.sell ∧
        asg.comboType = "short" ++ Combo.calendarBaseType near.type ++ "-"
          ++ asg.comboId.take 4)))) := by
  have hm : (Combo.Phase.calendar, 0, 1) ∈
      Combo.pairSeq ([Combo.c7s1, Combo.c7s2].map Combo.intr) := by
    rw [Combo.c7_pairSeq]
    simp
  exact ⟨hm, C7_calendar_combo_shape none Combo.c7dp [Combo.c7s1, Combo.c7s2] 0 1 hm⟩

/-- C7 counterexample: the two example legs have the SAME expiry
`2025-01-17`, yet `identifyCombos` assigns them a (long call) calendar
combo — the code checks the expiry ORDER of the sorted group but never that
the expiries differ, refuting the claim's "different expiries". -/
theorem C7_counterexample :
    Combo.c7s1.expiryISO = Combo.c7s2.expiryISO ∧
    Combo.identifyCombos none Combo.c7dp [Combo.c7s1, Combo.c7s2] =
      [Combo.applyAssign Combo.c7s1 Combo.c7asg,
       Combo.applyAssign Combo.c7s2 Combo.c7asg] ∧
    (Combo.applyAssign Combo.c7s1 Combo.c7asg).isComboHedge = true ∧
    (Combo.applyAssign Combo.c7s2 Combo.c7asg).isComboHedge = true ∧
    (Combo.applyAssign Combo.c7s1 Combo.c7asg).expiryISO =
      (Combo.applyAssign Combo.c7s2 Combo.c7asg).expiryISO ∧
    (Combo.applyAssign Combo.c7s1 Combo.c7asg).comboId =
      (Combo.applyAssign Combo.c7s2 Combo.c7asg).comboId ∧
    (Combo.applyAssign Combo.c7s1 Combo.c7asg).comboId ≠ "" ∧
    (Combo.applyAssign Combo.c7s1 Combo.c7asg).comboType =
      "longCalendarCall" ++ "-" ++ Combo.c7hash.take 4 :=
  ⟨rfl, Combo.c7_run, rfl, rfl, rfl, rfl, Combo.simpleHash_ne_empty _, rfl⟩
